import Mathlib

/-!
Verification development for the WeCom (企业微信) webhook channel plugin.

The TypeScript sources are embedded shallowly:
* pure helpers become Lean functions on `String` / `List Nat` (byte lists);
* the process-wide mutable caches (message dedup, access tokens) become
  explicit state values threaded through the functions;
* external library primitives (node `crypto` SHA-1 / AES-CBC, the regex
  engine, `fetch` responses, the filesystem) are passed in as explicit
  parameters or environment records, since their code is not part of the
  repository;
* fallible code returns `Except` or an outcome inductive.

JavaScript truthiness on optional strings (`undefined` and `""` are falsy)
is modelled by `truthy : Option String → Bool`.
-/

namespace WeCom

/-- JS truthiness for an optional string field: `undefined` and `""` are falsy. -/
def truthy (o : Option String) : Bool :=
  match o with
  | some s => s ≠ ""
  | none => false

/-- JS `a || b` on two optional string values: `a` if truthy, else `b`. -/
def jsOr (a b : Option String) : Option String :=
  if truthy a then a else b

/-- JS `a || ""`: the string if truthy, otherwise the empty string. -/
def jsOrEmpty (a : Option String) : String :=
  if truthy a then a.getD "" else ""

/-- JS template interpolation of a possibly-undefined field:
`undefined` prints as the string `"undefined"`. -/
def jsStr (o : Option String) : String :=
  match o with
  | some s => s
  | none => "undefined"

/-! String primitives are re-implemented structurally over `List Char` so
that every definition evaluates inside the kernel (core `String` loops use
well-founded recursion that does not reduce definitionally). -/

/-- `p` is a prefix of `s` (character-wise). -/
def charsStartsWith : List Char → List Char → Bool
  | _, [] => true
  | [], _ :: _ => false
  | c :: cs, p :: ps => c == p && charsStartsWith cs ps

/-- `p` occurs somewhere inside `s`. -/
def charsContains : List Char → List Char → Bool
  | [], p => charsStartsWith [] p
  | c :: rest, p => charsStartsWith (c :: rest) p || charsContains rest p

/-- Remove the first occurrence of `p` from `s` (JS `replace(p, "")` with a
plain string pattern; `s` unchanged when `p` does not occur). -/
def charsRemoveFirst : List Char → List Char → List Char
  | [], _ => []
  | c :: rest, p =>
    if charsStartsWith (c :: rest) p then (c :: rest).drop p.length
    else c :: charsRemoveFirst rest p

/-- ASCII whitespace recognized by the trim model. -/
def isJsSpace (c : Char) : Bool :=
  c == ' ' || c == '\t' || c == '\n' || c == '\r'

/-- Strip whitespace from both ends (JS `trim`). -/
def charsTrim (s : List Char) : List Char :=
  ((s.dropWhile isJsSpace).reverse.dropWhile isJsSpace).reverse

/-- JS `String.prototype.includes`. -/
def jsIncludes (s sub : String) : Bool :=
  charsContains s.data sub.data

/-- JS `String.prototype.startsWith`. -/
def jsStartsWith (s p : String) : Bool :=
  charsStartsWith s.data p.data

/-- JS `String.prototype.endsWith`. -/
def jsEndsWith (s p : String) : Bool :=
  charsStartsWith s.data.reverse p.data.reverse

/-- JS `String.prototype.replace(pat, "")` for a plain string pattern. -/
def jsRemoveFirst (s pat : String) : String :=
  ⟨charsRemoveFirst s.data pat.data⟩

/-- JS `String.prototype.trim`. -/
def jsTrim (s : String) : String :=
  ⟨charsTrim s.data⟩

/-- JS `String.prototype.toLowerCase` (ASCII range, as used on file paths). -/
def jsToLower (s : String) : String :=
  ⟨s.data.map Char.toLower⟩

/-- The characters after the last dot of `s`, or `s` itself when it has no
dot: the `split(".").pop()` idiom used for file extensions. -/
def extAfterLastDot (s : List Char) : List Char :=
  if s.contains '.' then (s.reverse.takeWhile (fun c => c != '.')).reverse else s

/-! ## Account configuration (src/channel.ts `WeComAccountConfig`) -/

structure WeComAccountConfig where
  accountId : String
  enabled : Bool
  corpId : String
  corpSecret : String
  agentId : String
  token : String
  encodingAesKey : String
deriving Repr, DecidableEq

/-! ## DedupCache (src/channel.ts `isMessageProcessed`)

The JS `Map<string, number>` keeps insertion order and is iterated by the
sweep; it is modelled as an association list in insertion order.  Timestamps
are `Nat` epoch milliseconds; JS `now - timestamp > TTL` on a clock that ran
backwards is `false`, matching truncated `Nat` subtraction. -/

def MSG_ID_CACHE_TTL : Nat := 60 * 1000

def MSG_ID_CACHE_MAX_SIZE : Nat := 1000

structure DedupState where
  entries : List (String × Nat)
deriving Repr, DecidableEq

/-- The sweep loop body: delete every entry with `now - timestamp > TTL`. -/
def dedupSweep (now : Nat) (s : DedupState) : DedupState :=
  ⟨s.entries.filter (fun e => !(now - e.2 > MSG_ID_CACHE_TTL))⟩

/-- The conditional cleanup at the top of `isMessageProcessed`:
sweep only when the cache size exceeds half the configured maximum. -/
def dedupCleanup (now : Nat) (s : DedupState) : DedupState :=
  if s.entries.length > MSG_ID_CACHE_MAX_SIZE / 2 then dedupSweep now s else s

/-- `isMessageProcessed(msgId)`: returns `true` when the id is a duplicate
(already processed), `false` when new; a new id is recorded with the current
time.  JS `Map.set` on a fresh key appends in insertion order. -/
def isMessageProcessed (msgId : String) (now : Nat) (s : DedupState) :
    Bool × DedupState :=
  let s1 := dedupCleanup now s
  if s1.entries.any (fun e => e.1 = msgId) then
    (true, s1)
  else
    (false, ⟨s1.entries ++ [(msgId, now)]⟩)

/-! ## CryptoCodec (src/wecom-api.ts `validateSignature`, `decryptMessage`)

SHA-1 and the AES-256-CBC primitive live in node `crypto`, outside the
repository; they enter the model as explicit function parameters
(`sha1Hex`, `aesDec`/`aesEnc`).  `decryptMessage` is modelled at the byte
level (`List Nat`): the base64 decode of the ciphertext and the base64
decode of `encodingAesKey + "="` that fixes the key/IV are absorbed into
the abstract cipher parameter, and UTF-8 strings are compared as their
byte lists. -/

/-- JS `[token, timestamp, nonce, encrypt].sort()`: the default comparator
is lexicographic string comparison, so the result is the unique sorted
permutation; modelled with `List.insertionSort` under `≤` on `String`. -/
def sortParts (l : List String) : List String :=
  List.insertionSort (fun a b => a ≤ b) l

/-- `validateSignature(token, timestamp, nonce, encrypt, signature)`:
sort the four strings, concatenate, SHA-1 hex digest, compare with the
supplied signature. -/
def validateSignature (sha1Hex : String → String)
    (token timestamp nonce encryptStr signature : String) : Bool :=
  let parts := sortParts [token, timestamp, nonce, encryptStr]
  let str := String.join parts
  signature == sha1Hex str

/-- Big-endian 32-bit read at `off` (`Buffer.readUInt32BE`); the guarded
call sites ensure at least four bytes are available. -/
def readUInt32BE (l : List Nat) (off : Nat) : Nat :=
  match l.drop off with
  | b0 :: b1 :: b2 :: b3 :: _ => ((b0 * 256 + b1) * 256 + b2) * 256 + b3
  | _ => 0

/-- Big-endian 32-bit encode (used by the spec-modelled `encrypt`). -/
def uint32BE (n : Nat) : List Nat :=
  [n / 16777216 % 256, n / 65536 % 256, n / 256 % 256, n % 256]

inductive DecryptError where
  /-- thrown as "padding out of range" -/
  | paddingInvalid
  /-- thrown as "CorpID 不匹配" -/
  | corpIdMismatch
  /-- a `RangeError` raised by `Buffer.readUInt32BE` on a short buffer -/
  | rangeError
deriving Repr, DecidableEq

/-- `decryptMessage(encodingAesKey, corpId, cipherText)` after the AES layer:
strip the custom padding (last byte is the pad length, `> 32` rejected),
then split `16-byte nonce ∥ 4-byte big-endian length L ∥ L message bytes ∥
trailing corp id`, failing when the trailing id differs from the expected
one.  `aesDec` stands for `crypto.createDecipheriv("aes-256-cbc", key,
key[0..16])` with auto-padding off, composed with the base64 decode of the
ciphertext. -/
def decryptMessageBytes (aesDec : List Nat → List Nat) (corpId : List Nat)
    (data : List Nat) : Except DecryptError (List Nat) :=
  let decrypted := aesDec data
  match decrypted.getLast? with
  | none => Except.error DecryptError.rangeError
  | some padLen =>
    if padLen > 32 then Except.error DecryptError.paddingInvalid
    else
      let stripped := decrypted.take (decrypted.length - padLen)
      if stripped.length < 20 then Except.error DecryptError.rangeError
      else
        let msgLen := readUInt32BE stripped 16
        let msg := (stripped.drop 20).take msgLen
        let receivedCorpId := stripped.drop (20 + msgLen)
        if receivedCorpId = corpId then Except.ok msg
        else Except.error DecryptError.corpIdMismatch

/-- Pad amount for the platform scheme: up to the next 32-byte boundary,
a full extra block when already aligned (always in `1..32`). -/
def padAmount (len : Nat) : Nat :=
  32 - len % 32

/-- Custom padding: append `padAmount` bytes, each equal to the amount. -/
def pad32 (b : List Nat) : List Nat :=
  b ++ List.replicate (padAmount b.length) (padAmount b.length)

/-- Modelled from the spec: the repository ships only `decryptMessage`; the
spec describes `encrypt` as its structural inverse — random 16-byte nonce,
4-byte big-endian message length, message, corp id, custom padding to a
32-byte boundary, then AES-256-CBC encryption.  `aesEnc` stands for the
AES-256-CBC encryption under the same key/IV (composed with base64 encode
of the output, which cancels against the decoder's base64 decode). -/
def encryptMessageBytes (aesEnc : List Nat → List Nat)
    (nonce msg corpId : List Nat) : List Nat :=
  aesEnc (pad32 (nonce ++ uint32BE msg.length ++ msg ++ corpId))

/-! ## TokenCache (src/wecom-api.ts `getAccessToken`, `clearTokenCache`)

`fetch` of the token endpoint is external; its parsed JSON body is passed
in as `TokenFetchData`.  Times are `Int` epoch milliseconds. -/

structure TokenFetchData where
  access_token : String
  expires_in : Int
  errcode : Option Int
  errmsg : String
deriving Repr, DecidableEq

structure TokenEntry where
  token : String
  expiry : Int
deriving Repr, DecidableEq

/-- The process-wide `tokenCache : Map<string, TokenCache>` in insertion
order. -/
abbrev TokenCacheState := List (String × TokenEntry)

def lookupToken (k : String) (c : TokenCacheState) : Option TokenEntry :=
  (c.find? (fun e => e.1 = k)).map (fun e => e.2)

/-- JS `Map.set`: replace in place when the key exists, append otherwise. -/
def setToken (k : String) (e : TokenEntry) : TokenCacheState → TokenCacheState
  | [] => [(k, e)]
  | (k0, e0) :: rest =>
    if k0 = k then (k, e) :: rest else (k0, e0) :: setToken k e rest

inductive TokenOutcome where
  /-- the returned token, the cache afterwards, and whether the token
  endpoint was called -/
  | ok (token : String) (cache : TokenCacheState) (fetched : Bool)
  /-- thrown as "获取 access_token 失败: code msg" -/
  | fetchFailed (code : Int) (msg : String)
deriving Repr, DecidableEq

/-- `getAccessToken(config)`: serve the cached token while `now` is strictly
before its expiry; otherwise call the token endpoint once, reject a nonzero
error code, and store the token with expiry `now + (expires_in - 120) *
1000`. -/
def getAccessToken (config : WeComAccountConfig) (now : Int)
    (fetchData : TokenFetchData) (cache : TokenCacheState) : TokenOutcome :=
  let cacheKey := config.corpId ++ ":" ++ config.agentId
  let fetchBranch : TokenOutcome :=
    let store : TokenOutcome :=
      TokenOutcome.ok fetchData.access_token
        (setToken cacheKey
          ⟨fetchData.access_token, now + (fetchData.expires_in - 120) * 1000⟩
          cache)
        true
    match fetchData.errcode with
    | some c => if c ≠ 0 then TokenOutcome.fetchFailed c fetchData.errmsg else store
    | none => store
  match lookupToken cacheKey cache with
  | some cached =>
    if now < cached.expiry then TokenOutcome.ok cached.token cache false
    else fetchBranch
  | none => fetchBranch

/-! ## MediaTransferClient download (src/wecom-api.ts `downloadMedia`)

The HTTP response is passed in as data; the filesystem is an explicit
state (`dirs` created, `files` written, newest first).  The
`Content-Disposition` filename regex is a library regex, abstracted as the
`dispositionFilename` parameter. -/

structure FsState where
  dirs : List String
  files : List (String × List Nat)
deriving Repr, DecidableEq

structure MediaHttpResponse where
  /-- the `content-type` header, `""` when absent -/
  contentType : String
  /-- `errcode` of the JSON error envelope (read only on the JSON path) -/
  errcode : Int
  /-- `errmsg` of the JSON error envelope -/
  errmsg : String
  /-- the `content-disposition` header, `""` when absent -/
  contentDisposition : String
  /-- the response body bytes -/
  body : List Nat
deriving Repr, DecidableEq

inductive MediaError where
  /-- thrown as "下载素材失败: errcode errmsg" -/
  | downloadFailed (errcode : Int) (errmsg : String)
deriving Repr, DecidableEq

/-- The fixed content-type → extension table of `downloadMedia`, with the
`.bin` fallback for unknown types. -/
def extFromContentType (ct : String) : String :=
  if ct = "image/jpeg" then ".jpg"
  else if ct = "image/png" then ".png"
  else if ct = "image/gif" then ".gif"
  else if ct = "image/webp" then ".webp"
  else if ct = "audio/amr" then ".amr"
  else if ct = "video/mp4" then ".mp4"
  else ".bin"

/-- `downloadMedia(config, mediaId, saveDir, filename?)`: a JSON
content-type means the body is an error envelope — fail before touching
the filesystem.  Otherwise resolve the destination name (explicit filename
wins, then the `Content-Disposition` filename, then media id + inferred
extension), create the directory if absent, write the body, and return the
path (`path.join` modelled as `dir ++ "/" ++ name`). -/
def downloadMedia (dispositionFilename : String → Option String)
    (resp : MediaHttpResponse) (mediaId saveDir : String)
    (filename : Option String) (fs : FsState) :
    Except MediaError String × FsState :=
  if jsIncludes resp.contentType "application/json" then
    (Except.error (MediaError.downloadFailed resp.errcode resp.errmsg), fs)
  else
    let finalFilename :=
      if truthy filename then filename.getD ""
      else
        match dispositionFilename resp.contentDisposition with
        | some f => f
        | none => mediaId ++ extFromContentType resp.contentType
    let fs1 := if fs.dirs.contains saveDir then fs
               else { fs with dirs := saveDir :: fs.dirs }
    let filePath := saveDir ++ "/" ++ finalFilename
    (Except.ok filePath, { fs1 with files := (filePath, resp.body) :: fs1.files })

/-! ## OutboundDeliveryRouter (src/channel.ts `deliver` inside
`processInboundMessage`)

The filesystem check, the upload/send API chain, and the media-path regex
are external effects, abstracted into `SendEnv`: `fsExists` is
`fs.existsSync`, `sendOk` tells whether the `uploadMedia` + `sendWeCom*`
chain for a path succeeds (its exceptions are caught per item in the
source), and `matchMediaPath` is the library regex
`[\/\\][^\s]+\.(png|jpg|...)` returning the matched substring.  The
function returns the ordered trace of send effects. -/

inductive MediaType where
  | image
  | voice
  | video
  | file
deriving Repr, DecidableEq

/-- Extension → media type classification used by the router. -/
def getMediaType (filePath : String) : MediaType :=
  let ext : String := ⟨extAfterLastDot (jsToLower filePath).data⟩
  if ["jpg", "jpeg", "png", "gif", "webp", "bmp"].contains ext then MediaType.image
  else if ["amr", "mp3", "wav", "ogg", "m4a"].contains ext then MediaType.voice
  else if ["mp4", "mov", "avi", "wmv", "mkv", "flv"].contains ext then MediaType.video
  else MediaType.file

/-- Which branch of the router invoked a send. -/
inductive PathKind where
  | mediaUrl
  | mediaUrls
  | image
  | file
  | video
  | voiceAudio
  | textScan
deriving Repr, DecidableEq

inductive SendAction where
  /-- `sendMediaFile` was invoked from this branch on this path -/
  | attempt (k : PathKind) (path : String)
  /-- a media message of this (upload) type was delivered -/
  | sentMedia (path : String) (t : MediaType)
  /-- a text message was delivered -/
  | sentText (s : String)
deriving Repr, DecidableEq

structure SendEnv where
  fsExists : String → Bool
  sendOk : String → Bool
  matchMediaPath : String → Option String

/-- The `sendMediaFile` helper: missing file → `false`; voice files not in
AMR are re-classified as generic file uploads; upload/send failures are
caught and yield `false`. -/
def sendMediaFile (env : SendEnv) (filePath : String) : Bool × List SendAction :=
  if !env.fsExists filePath then (false, [])
  else
    let mediaType := getMediaType filePath
    let uploadType :=
      if mediaType = MediaType.voice && !jsEndsWith (jsToLower filePath) ".amr" then
        MediaType.file
      else mediaType
    if env.sendOk filePath then (true, [SendAction.sentMedia filePath uploadType])
    else (false, [])

/-- The `for (const filePath of payload.mediaUrls)` loop: sequential sends,
any success counts, failures do not abort the rest. -/
def sendUrlList (env : SendEnv) : List String → Bool × List SendAction
  | [] => (false, [])
  | fp :: rest =>
    let r := sendMediaFile env fp
    let r2 := sendUrlList env rest
    (r.1 || r2.1, (SendAction.attempt PathKind.mediaUrls fp :: r.2) ++ r2.2)

structure MediaRef where
  path : Option String
  url : Option String
deriving Repr, DecidableEq

structure ReplyPayload where
  mediaUrl : Option String
  mediaUrls : Option (List String)
  image : Option MediaRef
  file : Option MediaRef
  video : Option MediaRef
  voice : Option MediaRef
  audio : Option MediaRef
  text : Option String
  body : Option String
deriving Repr, DecidableEq

/-- The failure-phrase filter of the implicit text-path branch:
`/无法|失败|错误|缺失|Bug/`. -/
def hasFailureWord (s : String) : Bool :=
  jsIncludes s "无法" || jsIncludes s "失败" || jsIncludes s "错误" ||
    jsIncludes s "缺失" || jsIncludes s "Bug"

/-- The apology/failure prefix test `/^(抱歉|很抱歉|非常抱歉|无法|失败|错误)/`
applied to the trimmed reply text. -/
def isErrorMessage (s : String) : Bool :=
  ["抱歉", "很抱歉", "非常抱歉", "无法", "失败", "错误"].any
    (fun p => jsStartsWith (jsTrim s) p)

/-- The suffix of `s` after the first occurrence of `p`, or `none` when `p`
does not occur. -/
def charsAfterFirst : List Char → List Char → Option (List Char)
  | [], p => if charsStartsWith [] p then some [] else none
  | c :: rest, p =>
    if charsStartsWith (c :: rest) p then some ((c :: rest).drop p.length)
    else charsAfterFirst rest p

/-- `a` occurs and `b` occurs after it (the `a.*b` regex shape; the JS dot
does not cross newlines, a refinement this flat message text never
exercises). -/
def containsThen (s a b : String) : Bool :=
  match charsAfterFirst s.data a.data with
  | some suffix => charsContains suffix b.data
  | none => false

/-- The configuration-defect test `/corpId|配置.*缺失|配置.*不完整|Bug/`. -/
def isConfigError (s : String) : Bool :=
  jsIncludes s "corpId" || containsThen s "配置" "缺失" ||
    containsThen s "配置" "不完整" || jsIncludes s "Bug"

/-- The `payload.mediaUrl` branch: send it when the field is truthy. -/
def mediaUrlStep (env : SendEnv) (p : ReplyPayload) : Bool × List SendAction :=
  if truthy p.mediaUrl then
    let fp := p.mediaUrl.getD ""
    let r := sendMediaFile env fp
    (r.1, SendAction.attempt PathKind.mediaUrl fp :: r.2)
  else (false, [])

/-- The `payload.mediaUrls` branch: loop over the list when present and
non-empty. -/
def mediaUrlsStep (env : SendEnv) (p : ReplyPayload) : Bool × List SendAction :=
  match p.mediaUrls with
  | some urls => if urls.length > 0 then sendUrlList env urls else (false, [])
  | none => (false, [])

/-- A legacy single-media field (`image` / `file` / `video` /
`voice`-or-`audio`): send `ref.path || ref.url` when truthy. -/
def legacyRefStep (env : SendEnv) (k : PathKind) (ref : Option MediaRef) :
    Bool × List SendAction :=
  match ref with
  | some r =>
    let ip := jsOr r.path r.url
    if truthy ip then
      let fp := ip.getD ""
      let s := sendMediaFile env fp
      (s.1, SendAction.attempt k fp :: s.2)
    else (false, [])
  | none => (false, [])

/-- The implicit media-path scan over the free text (only reached when no
structured field sent media): on a regex match of an existing path, send
it; on success return (second component `true` models the early `return`),
sending the remaining text first unless it is empty or matches the
failure-word pattern. -/
def implicitTextStep (env : SendEnv) (replyText : String) (mediaSent : Bool) :
    List SendAction × Bool :=
  if !mediaSent then
    match env.matchMediaPath replyText with
    | some mp =>
      if env.fsExists mp then
        let s := sendMediaFile env mp
        if s.1 then
          let textWithoutPath := jsTrim (jsRemoveFirst replyText mp)
          if textWithoutPath ≠ "" && !hasFailureWord textWithoutPath then
            ((SendAction.attempt PathKind.textScan mp :: s.2) ++
               [SendAction.sentText textWithoutPath], true)
          else (SendAction.attempt PathKind.textScan mp :: s.2, true)
        else (SendAction.attempt PathKind.textScan mp :: s.2, false)
      else ([], false)
    | none => ([], false)
  else ([], false)

/-- The final text block with the error-phrase suppression after a
successful structured media send. -/
def textStep (replyText : String) (mediaSent returned : Bool) :
    List SendAction :=
  if returned then []
  else if replyText ≠ "" then
    if mediaSent && (isErrorMessage replyText || isConfigError replyText) then []
    else [SendAction.sentText replyText]
  else []

/-- The `deliver` callback handed to the buffered block dispatcher, as the
ordered trace of its send effects.  Branch structure follows the source:
`mediaUrl`, then the `mediaUrls` loop, then (only if nothing sent yet) the
legacy `image` field, then `file`, `video`, `voice`/`audio` regardless of
earlier sends; then the implicit media-path scan over the free text, and
finally the text send with the error-phrase suppression. -/
def deliver (env : SendEnv) (p : ReplyPayload) : List SendAction :=
  let r1 := mediaUrlStep env p
  let r2 := mediaUrlsStep env p
  let m2 := r1.1 || r2.1
  let r3 := if !m2 then legacyRefStep env PathKind.image p.image else (false, [])
  let r4 := legacyRefStep env PathKind.file p.file
  let r5 := legacyRefStep env PathKind.video p.video
  let r6 := legacyRefStep env PathKind.voiceAudio
    (match p.voice with | some v => some v | none => p.audio)
  let mediaSent := m2 || r3.1 || r4.1 || r5.1 || r6.1
  let replyText := jsOrEmpty (jsOr p.text p.body)
  let imp := implicitTextStep env replyText mediaSent
  let aText := textStep replyText mediaSent imp.2
  r1.2 ++ r2.2 ++ r3.2 ++ r4.2 ++ r5.2 ++ r6.2 ++ imp.1 ++ aText

/-! ## WebhookDispatcher (src/channel.ts `handleWeComWebhook`,
`processMediaMessage`, `processLocationMessage`, `processLinkMessage`)

The handler is modelled as a function from the request, an environment for
the external effects, the wall clock, and the dedup cache, to
`(handled?, ordered action trace, cache afterwards)`.  The response writes
and the network-dependent steps appear as trace actions so that their
relative order is provable.  `validateSignature`'s SHA-1, `decryptMessage`'s
AES and the `parseXmlMessage` regex parse are collapsed into environment
data (`sigValid`, `decrypted`, `parse`): the claims under audit concern
the dispatch order around them, not their internals. -/

/-- The decrypted XML field mapping (`Record<string, string>`; absent tags
are `undefined`). -/
structure Msg where
  MsgType : Option String := none
  Event : Option String := none
  EventKey : Option String := none
  FromUserName : Option String := none
  CreateTime : Option String := none
  MsgId : Option String := none
  Content : Option String := none
  MediaId : Option String := none
  PicUrl : Option String := none
  Format : Option String := none
  ThumbMediaId : Option String := none
  FileName : Option String := none
  Location_X : Option String := none
  Location_Y : Option String := none
  Latitude : Option String := none
  Longitude : Option String := none
  Precision : Option String := none
  Scale : Option String := none
  Label : Option String := none
  Title : Option String := none
  Description : Option String := none
  Url : Option String := none
deriving Repr, DecidableEq

/-- `processLocationMessage`. -/
def processLocationMessage (msg : Msg) : String :=
  let latitude := jsOr msg.Location_X msg.Latitude
  let longitude := jsOr msg.Location_Y msg.Longitude
  let t1 := "[位置]"
  let t2 := if truthy msg.Label then t1 ++ " " ++ msg.Label.getD "" else t1
  let t3 := t2 ++ "\n坐标: " ++ jsStr latitude ++ ", " ++ jsStr longitude
  if truthy msg.Scale then t3 ++ " (缩放级别: " ++ msg.Scale.getD "" ++ ")" else t3

/-- `processLinkMessage`. -/
def processLinkMessage (msg : Msg) : String :=
  let title := if truthy msg.Title then msg.Title.getD "" else "无标题"
  let description := jsOrEmpty msg.Description
  let url := jsOrEmpty msg.Url
  let t1 := "[链接] " ++ title
  let t2 := if description ≠ "" then t1 ++ "\n" ++ description else t1
  if url ≠ "" then t2 ++ "\n链接: " ++ url else t2

/-- One step of the handler, in execution order. -/
inductive HAction where
  /-- a status/body written to the HTTP response -/
  | respond (status : Nat) (body : String)
  /-- `validateSignature` was invoked -/
  | checkSig
  /-- `decryptMessage` was invoked -/
  | decryptCall
  /-- the dedup admission check ran for this message id -/
  | dedupCheck (id : String)
  /-- `downloadMedia` was invoked for this media id (a network call) -/
  | mediaDownload (mediaId : String)
  /-- the detached `processInboundMessage` task was launched (agent
  routing and reply dispatch happen inside it) -/
  | detachedStart (text : String)
  /-- the detached task rejected; its error was logged by the `.catch` -/
  | detachedFailed
deriving Repr, DecidableEq

/-- External effects of the dispatcher. -/
structure DispatchEnv where
  /-- outcome of `validateSignature` (SHA-1 over the sorted strings) -/
  sigValid : Bool
  /-- outcome of `decryptMessage`: the plaintext, or `none` when it throws -/
  decrypted : Option String
  /-- `parseXmlMessage` applied to the decrypted XML -/
  parse : String → Msg
  /-- outcome of `downloadMedia` per media id: saved path, or the error
  message of the exception it threw -/
  download : String → Except String String
  /-- whether the detached `processInboundMessage` promise rejects -/
  processFails : Bool

/-- The request after URL parsing: path match, method, query parameters,
the resolved account, and the `<Encrypt>` CDATA payload the body regex
extracted (`none` when the regex failed or the body had no envelope). -/
structure ReqInput where
  pathOk : Bool
  method : String
  msgSignature : Option String := none
  timestamp : Option String := none
  nonce : Option String := none
  echostr : Option String := none
  account : WeComAccountConfig
  encryptExtract : Option String := none
deriving Repr

/-- `processMediaMessage(msg, msgType, accountConfig)`: resolve the media
id, download (adding the thumbnail download for videos, whose failure is
swallowed), and build the descriptive text; a download failure degrades to
a placeholder description.  Returns the trace of download calls, the text,
and the saved file path if any. -/
def processMediaMessage (env : DispatchEnv) (msg : Msg) (msgType : String) :
    List HAction × String × Option String :=
  if !truthy msg.MediaId then
    ([], "[" ++ msgType ++ "] (无法获取媒体文件)", none)
  else
    let mediaId := msg.MediaId.getD ""
    match msgType with
    | "image" =>
      match env.download mediaId with
      | Except.ok filePath =>
        let d1 := "[图片] " ++ filePath
        let d2 := if truthy msg.PicUrl then d1 ++ "\n图片链接: " ++ msg.PicUrl.getD "" else d1
        ([HAction.mediaDownload mediaId], d2, some filePath)
      | Except.error e =>
        ([HAction.mediaDownload mediaId], "[" ++ msgType ++ "] (下载失败: " ++ e ++ ")", none)
    | "voice" =>
      match env.download mediaId with
      | Except.ok filePath =>
        let format := if truthy msg.Format then msg.Format.getD "" else "amr"
        ([HAction.mediaDownload mediaId],
          "[语音] " ++ filePath ++ " (格式: " ++ format ++ ")", some filePath)
      | Except.error e =>
        ([HAction.mediaDownload mediaId], "[" ++ msgType ++ "] (下载失败: " ++ e ++ ")", none)
    | "video" =>
      match env.download mediaId with
      | Except.ok filePath =>
        if truthy msg.ThumbMediaId then
          let thumbId := msg.ThumbMediaId.getD ""
          let desc :=
            match env.download thumbId with
            | Except.ok thumbPath => "[视频] " ++ filePath ++ "\n缩略图: " ++ thumbPath
            | Except.error _ => "[视频] " ++ filePath
          ([HAction.mediaDownload mediaId, HAction.mediaDownload thumbId], desc, some filePath)
        else
          ([HAction.mediaDownload mediaId], "[视频] " ++ filePath, some filePath)
      | Except.error e =>
        ([HAction.mediaDownload mediaId], "[" ++ msgType ++ "] (下载失败: " ++ e ++ ")", none)
    | "file" =>
      match env.download mediaId with
      | Except.ok filePath =>
        ([HAction.mediaDownload mediaId], "[文件] " ++ filePath, some filePath)
      | Except.error e =>
        ([HAction.mediaDownload mediaId], "[" ++ msgType ++ "] (下载失败: " ++ e ++ ")", none)
    | _ => ([], "[" ++ msgType ++ "] (不支持的媒体类型)", none)

/-- The composite message id of the POST path: `MsgId` when truthy, else
the `type_event_time_sender` template (JS interpolation prints absent
fields as "undefined", and `Event` carries its own `|| ''`). -/
def computeMessageId (msg : Msg) : String :=
  if truthy msg.MsgId then msg.MsgId.getD ""
  else
    jsStr msg.MsgType ++ "_" ++ jsOrEmpty msg.Event ++ "_" ++
      jsStr msg.CreateTime ++ "_" ++ jsStr msg.FromUserName

/-- The type-dispatch switch of the POST path: either a resolved text (plus
media trace and file path), or an early 200 acknowledgment
(unsubscribe, unrecognized events, unknown message types). -/
def typeDispatch (env : DispatchEnv) (msg : Msg) :
    Except Unit (List HAction × String) :=
  match (msg.MsgType.getD "") with
  | "text" => Except.ok ([], jsOrEmpty msg.Content)
  | "image" =>
    let r := processMediaMessage env msg "image"
    Except.ok (r.1, r.2.1)
  | "voice" =>
    let r := processMediaMessage env msg "voice"
    Except.ok (r.1, r.2.1)
  | "video" =>
    let r := processMediaMessage env msg "video"
    Except.ok (r.1, r.2.1)
  | "file" =>
    let r := processMediaMessage env msg "file"
    Except.ok (r.1, r.2.1)
  | "location" => Except.ok ([], processLocationMessage msg)
  | "link" => Except.ok ([], processLinkMessage msg)
  | "event" =>
    match msg.Event with
    | some "click" => Except.ok ([], jsOrEmpty msg.EventKey)
    | some "subscribe" => Except.ok ([], "/help")
    | some "unsubscribe" => Except.error ()
    | some "location" =>
      Except.ok ([], "[位置上报] 纬度: " ++ jsStr msg.Latitude ++ ", 经度: " ++
        jsStr msg.Longitude ++ ", 精度: " ++ jsStr msg.Precision)
    | _ => Except.error ()
  | _ => Except.error ()

/-- `handleWeComWebhook(req, res)`: returns whether the request was
handled, the ordered trace of handler steps, and the dedup cache
afterwards. -/
def handleWeComWebhook (inp : ReqInput) (env : DispatchEnv) (now : Nat)
    (cache : DedupState) : Bool × List HAction × DedupState :=
  if !inp.pathOk then (false, [], cache)
  else if !inp.account.enabled || inp.account.corpId = "" then
    (true, [HAction.respond 404 "Account not found"], cache)
  else if inp.method = "GET" then
    if !(truthy inp.msgSignature && truthy inp.timestamp && truthy inp.nonce &&
         truthy inp.echostr) then
      (true, [HAction.respond 400 "Missing parameters"], cache)
    else if !env.sigValid then
      (true, [HAction.checkSig, HAction.respond 401 "Invalid signature"], cache)
    else
      match env.decrypted with
      | some d =>
        (true, [HAction.checkSig, HAction.decryptCall, HAction.respond 200 d], cache)
      | none =>
        (true, [HAction.checkSig, HAction.decryptCall,
                HAction.respond 500 "Decrypt failed"], cache)
  else if inp.method = "POST" then
    if !(truthy inp.msgSignature && truthy inp.timestamp && truthy inp.nonce) then
      (true, [HAction.respond 400 "Missing required parameters"], cache)
    else
      match inp.encryptExtract with
      | none => (true, [HAction.respond 400 "Invalid encrypted message format"], cache)
      | some _ =>
        if !env.sigValid then
          (true, [HAction.checkSig, HAction.respond 401 "Invalid signature"], cache)
        else
          match env.decrypted with
          | none =>
            (true, [HAction.checkSig, HAction.decryptCall,
                    HAction.respond 500 "Decrypt failed"], cache)
          | some xml =>
            if (isMessageProcessed (computeMessageId (env.parse xml)) now cache).1 then
              (true,
               [HAction.checkSig, HAction.decryptCall,
                HAction.dedupCheck (computeMessageId (env.parse xml))] ++
                 [HAction.respond 200 "success"],
               (isMessageProcessed (computeMessageId (env.parse xml)) now cache).2)
            else
              match typeDispatch env (env.parse xml) with
              | Except.error _ =>
                (true,
                 [HAction.checkSig, HAction.decryptCall,
                  HAction.dedupCheck (computeMessageId (env.parse xml))] ++
                   [HAction.respond 200 "success"],
                 (isMessageProcessed (computeMessageId (env.parse xml)) now cache).2)
              | Except.ok r =>
                if r.2 = "" then
                  (true,
                   [HAction.checkSig, HAction.decryptCall,
                    HAction.dedupCheck (computeMessageId (env.parse xml))] ++
                     r.1 ++ [HAction.respond 200 "success"],
                   (isMessageProcessed (computeMessageId (env.parse xml)) now cache).2)
                else
                  (true,
                   [HAction.checkSig, HAction.decryptCall,
                    HAction.dedupCheck (computeMessageId (env.parse xml))] ++
                     r.1 ++ [HAction.respond 200 "success",
                       HAction.detachedStart r.2] ++
                     (if env.processFails then [HAction.detachedFailed] else []),
                   (isMessageProcessed (computeMessageId (env.parse xml)) now cache).2)
  else
    (true, [HAction.respond 405 "Method Not Allowed"], cache)

/-! # Theorems -/

/-- Entries surviving the conditional cleanup were already in the cache. -/
theorem mem_dedupCleanup_sub {now : Nat} {s : DedupState} {e : String × Nat}
    (h : e ∈ (dedupCleanup now s).entries) : e ∈ s.entries := by
  unfold dedupCleanup dedupSweep at h
  split at h
  · exact (List.mem_filter.mp h).1
  · exact h

/-- An entry whose age is within the TTL survives the conditional cleanup. -/
theorem mem_dedupCleanup_of_fresh {now : Nat} {s : DedupState} {e : String × Nat}
    (he : e ∈ s.entries) (hage : now - e.2 ≤ MSG_ID_CACHE_TTL) :
    e ∈ (dedupCleanup now s).entries := by
  unfold dedupCleanup dedupSweep
  split
  · exact List.mem_filter.mpr ⟨he, by simpa using hage⟩
  · exact he

/-- C4: the dedup admission check reports new on first sight (recording the
id at the current time), reports duplicate for an id seen within the TTL
while keeping the original first-seen timestamp, runs the sweep when the
size exceeds half the maximum and then retains exactly the entries aged at
most the TTL, and admits an id as new again once all its entries have aged
past the TTL and the sweep fires. -/
theorem dedup_admission_correct (s : DedupState) (id : String) (t now : Nat) :
    ((∀ t2, (id, t2) ∉ s.entries) →
      (isMessageProcessed id now s).1 = false ∧
      (id, now) ∈ (isMessageProcessed id now s).2.entries) ∧
    ((id, t) ∈ s.entries → now - t ≤ MSG_ID_CACHE_TTL →
      (isMessageProcessed id now s).1 = true ∧
      (id, t) ∈ (isMessageProcessed id now s).2.entries) ∧
    (s.entries.length > MSG_ID_CACHE_MAX_SIZE / 2 →
      ∀ p : String × Nat,
        p ∈ (dedupCleanup now s).entries ↔
          p ∈ s.entries ∧ now - p.2 ≤ MSG_ID_CACHE_TTL) ∧
    ((∀ t2, (id, t2) ∈ s.entries → now - t2 > MSG_ID_CACHE_TTL) →
      s.entries.length > MSG_ID_CACHE_MAX_SIZE / 2 →
      (isMessageProcessed id now s).1 = false) := by
  refine ⟨?_, ?_, ?_, ?_⟩
  · intro habs
    have hany : (dedupCleanup now s).entries.any (fun e => e.1 = id) = false := by
      rw [List.any_eq_false]
      intro e he hkey
      have he0 : e ∈ s.entries := mem_dedupCleanup_sub he
      have : e = (id, e.2) := by
        cases e
        simp only [decide_eq_true_eq] at hkey
        simp [hkey]
      exact habs e.2 (this ▸ he0)
    simp [isMessageProcessed, hany]
  · intro hmem hage
    have hs1 : (id, t) ∈ (dedupCleanup now s).entries :=
      mem_dedupCleanup_of_fresh hmem hage
    have hany : (dedupCleanup now s).entries.any (fun e => e.1 = id) = true :=
      List.any_eq_true.mpr ⟨(id, t), hs1, by simp⟩
    simp [isMessageProcessed, hany, hs1]
  · intro hlen p
    unfold dedupCleanup dedupSweep
    simp only [if_pos hlen]
    constructor
    · intro hp
      have := List.mem_filter.mp hp
      refine ⟨this.1, ?_⟩
      simpa using this.2
    · intro hp
      exact List.mem_filter.mpr ⟨hp.1, by simpa using hp.2⟩
  · intro hold hlen
    have hany : (dedupCleanup now s).entries.any (fun e => e.1 = id) = false := by
      rw [List.any_eq_false]
      intro e he hkey
      have he0 : e ∈ s.entries := mem_dedupCleanup_sub he
      have hekey : e.1 = id := by simpa using hkey
      have hstale : now - e.2 > MSG_ID_CACHE_TTL := by
        apply hold e.2
        have : e = (id, e.2) := by
          cases e
          simp_all
        exact this ▸ he0
      unfold dedupCleanup dedupSweep at he
      rw [if_pos hlen] at he
      have hle : now - e.2 ≤ MSG_ID_CACHE_TTL := by
        simpa using (List.mem_filter.mp he).2
      omega
    simp [isMessageProcessed, hany]

/-- Witness for C4: instantiates every part of `dedup_admission_correct`
at concrete caches and clocks — an empty cache admits "a" as new at time
5; a cache holding ("a", 0) reports a duplicate at time 60000 and keeps
the old timestamp; a 501-entry cache of ("x", 0) entries at time 70000
sweeps them all; after which "x" is admitted as new again. -/
theorem dedup_admission_correct_witness :
    ((isMessageProcessed "a" 5 ⟨[]⟩).1 = false ∧
      ("a", 5) ∈ (isMessageProcessed "a" 5 ⟨[]⟩).2.entries) ∧
    ((isMessageProcessed "a" 60000 ⟨[("a", 0)]⟩).1 = true ∧
      ("a", 0) ∈ (isMessageProcessed "a" 60000 ⟨[("a", 0)]⟩).2.entries) ∧
    (("x", 0) ∉ (dedupCleanup 70000 ⟨List.replicate 501 ("x", 0)⟩).entries) ∧
    (isMessageProcessed "x" 70000 ⟨List.replicate 501 ("x", 0)⟩).1 = false := by
  have bigLen : (DedupState.mk (List.replicate 501 ("x", 0))).entries.length >
      MSG_ID_CACHE_MAX_SIZE / 2 := by
    show (List.replicate 501 (("x", 0) : String × Nat)).length > 1000 / 2
    rw [List.length_replicate]
    norm_num
  refine ⟨(dedup_admission_correct ⟨[]⟩ "a" 0 5).1 (by simp),
          (dedup_admission_correct ⟨[("a", 0)]⟩ "a" 0 60000).2.1 (by simp)
            (by decide), ?_, ?_⟩
  · intro hmem
    have h3 := ((dedup_admission_correct ⟨List.replicate 501 ("x", 0)⟩ "x" 0
      70000).2.2.1 bigLen ("x", 0)).mp hmem
    have := h3.2
    simp [MSG_ID_CACHE_TTL] at this
  · refine (dedup_admission_correct ⟨List.replicate 501 ("x", 0)⟩ "x" 0
      70000).2.2.2 ?_ bigLen
    intro t2 hmem
    have := List.eq_of_mem_replicate hmem
    have ht2 : t2 = 0 := by
      have := congrArg Prod.snd this
      simpa using this
    subst ht2
    decide

/-- Sorting is invariant under permutation of its input: the order on
strings is total, transitive and antisymmetric, so the sorted permutation
of a multiset is unique. -/
theorem sortParts_perm_eq {l1 l2 : List String} (h : l1.Perm l2) :
    sortParts l1 = sortParts l2 :=
  List.eq_of_perm_of_sorted
    ((List.perm_insertionSort _ l1).trans
      (h.trans (List.perm_insertionSort _ l2).symm))
    (List.sorted_insertionSort _ l1) (List.sorted_insertionSort _ l2)

/-- C5: `validateSignature` is invariant under every permutation of the
order in which timestamp, nonce and payload are supplied (all four strings
are sorted before hashing), and it succeeds exactly when the supplied
signature equals the SHA-1 hex digest of the sorted concatenation. -/
theorem validateSignature_perm_invariant (sha1Hex : String → String)
    (token a b c sig : String) :
    (validateSignature sha1Hex token a b c sig =
        validateSignature sha1Hex token a c b sig ∧
      validateSignature sha1Hex token a b c sig =
        validateSignature sha1Hex token b a c sig ∧
      validateSignature sha1Hex token a b c sig =
        validateSignature sha1Hex token b c a sig ∧
      validateSignature sha1Hex token a b c sig =
        validateSignature sha1Hex token c a b sig ∧
      validateSignature sha1Hex token a b c sig =
        validateSignature sha1Hex token c b a sig) ∧
    (validateSignature sha1Hex token a b c sig = true ↔
      sig = sha1Hex (String.join (sortParts [token, a, b, c]))) := by
  have key : ∀ {x y z : String}, [a, b, c].Perm [x, y, z] →
      validateSignature sha1Hex token a b c sig =
        validateSignature sha1Hex token x y z sig := by
    intro x y z hp
    have hsort := sortParts_perm_eq (List.Perm.cons token hp)
    show (sig == sha1Hex (String.join (sortParts [token, a, b, c]))) =
      (sig == sha1Hex (String.join (sortParts [token, x, y, z])))
    rw [hsort]
  have pacb : [a, b, c].Perm [a, c, b] := List.Perm.cons a (List.Perm.swap c b [])
  have pbac : [a, b, c].Perm [b, a, c] := List.Perm.swap b a [c]
  have pbca : [a, b, c].Perm [b, c, a] :=
    pbac.trans (List.Perm.cons b (List.Perm.swap c a []))
  have pcab : [a, b, c].Perm [c, a, b] := pacb.trans (List.Perm.swap c a [b])
  have pcba : [a, b, c].Perm [c, b, a] :=
    pcab.trans (List.Perm.cons c (List.Perm.swap b a []))
  refine ⟨⟨key pacb, key pbac, key pbca, key pcab, key pcba⟩, ?_⟩
  show (sig == sha1Hex (String.join (sortParts [token, a, b, c]))) = true ↔ _
  exact beq_iff_eq

/-- Evaluating the decoder on an encoder output: with an inverse cipher
pair, a 16-byte nonce and a message shorter than 2^32 bytes, decryption
recovers the message exactly when the expected corp id matches the one the
encoder embedded. -/
theorem decryptMessageBytes_encrypt (aesEnc aesDec : List Nat → List Nat)
    (hinv : ∀ b, aesDec (aesEnc b) = b)
    (nonce msg corpId X : List Nat)
    (hn : nonce.length = 16) (hm : msg.length < 4294967296) :
    decryptMessageBytes aesDec X (encryptMessageBytes aesEnc nonce msg corpId) =
      if corpId = X then Except.ok msg
      else Except.error DecryptError.corpIdMismatch := by
  have h4 : uint32BE msg.length = [msg.length / 16777216 % 256,
      msg.length / 65536 % 256, msg.length / 256 % 256, msg.length % 256] := rfl
  set inner : List Nat := nonce ++ uint32BE msg.length ++ msg ++ corpId with hinner
  have hinlen : inner.length = 20 + msg.length + corpId.length := by
    simp [hinner, uint32BE, hn]
    omega
  set p : Nat := padAmount inner.length with hp
  have hmod := Nat.mod_lt inner.length (show 0 < 32 by norm_num)
  have hp1 : 1 ≤ p := by
    rw [hp, padAmount]
    omega
  have hp32 : p ≤ 32 := by
    rw [hp, padAmount]
    omega
  have hdec : aesDec (encryptMessageBytes aesEnc nonce msg corpId) =
      inner ++ List.replicate p p := by
    rw [encryptMessageBytes, hinv]
    rw [pad32]
  obtain ⟨p', hp'⟩ : ∃ p', p = p' + 1 := ⟨p - 1, by omega⟩
  have hlast : (inner ++ List.replicate p p).getLast? = some p := by
    rw [hp', List.replicate_succ', ← List.append_assoc]
    exact List.getLast?_concat _
  have hstrip : (inner ++ List.replicate p p).take
      ((inner ++ List.replicate p p).length - p) = inner := by
    have hl : (inner ++ List.replicate p p).length - p = inner.length := by
      simp
    rw [hl, List.take_left]
  have hdrop16 : inner.drop 16 = uint32BE msg.length ++ (msg ++ corpId) := by
    have hassoc : inner = nonce ++ (uint32BE msg.length ++ (msg ++ corpId)) := by
      rw [hinner]
      simp [List.append_assoc]
    rw [hassoc, ← hn, List.drop_left]
  have hread : readUInt32BE inner 16 = msg.length := by
    rw [readUInt32BE, hdrop16, h4]
    simp only [List.cons_append]
    omega
  have hdrop20 : inner.drop 20 = msg ++ corpId := by
    have hassoc : inner = (nonce ++ uint32BE msg.length) ++ (msg ++ corpId) := by
      rw [hinner]
      simp [List.append_assoc]
    have hl : (nonce ++ uint32BE msg.length).length = 20 := by
      simp [uint32BE, hn]
    rw [hassoc, ← hl, List.drop_left]
  have hdropAll : inner.drop (20 + msg.length) = corpId := by
    have hassoc : inner = ((nonce ++ uint32BE msg.length) ++ msg) ++ corpId := by
      rw [hinner]
    have hl : ((nonce ++ uint32BE msg.length) ++ msg).length = 20 + msg.length := by
      simp [uint32BE, hn]
      omega
    rw [hassoc, ← hl, List.drop_left]
  rw [decryptMessageBytes, hdec, hlast]
  simp only
  rw [if_neg (by omega : ¬ p > 32), hstrip]
  rw [if_neg (by omega : ¬ inner.length < 20)]
  rw [hread, hdrop20, hdropAll]
  rw [List.take_left]

/-- C3: with the same key (an inverse AES-CBC pair), `decrypt` undoes
`encrypt` — the encoder emits nonce ∥ big-endian length ∥ message ∥ corp
id, custom-padded to a 32-byte boundary and encrypted — and decrypting a
ciphertext whose embedded trailing corp identifier differs from the
expected one fails with the corp-id mismatch error. -/
theorem decrypt_encrypt_roundtrip (aesEnc aesDec : List Nat → List Nat)
    (hinv : ∀ b, aesDec (aesEnc b) = b)
    (nonce msg corpId corpId2 : List Nat)
    (hn : nonce.length = 16) (hm : msg.length < 4294967296) :
    decryptMessageBytes aesDec corpId
        (encryptMessageBytes aesEnc nonce msg corpId) = Except.ok msg ∧
    (corpId2 ≠ corpId →
      decryptMessageBytes aesDec corpId2
          (encryptMessageBytes aesEnc nonce msg corpId) =
        Except.error DecryptError.corpIdMismatch) := by
  constructor
  · rw [decryptMessageBytes_encrypt aesEnc aesDec hinv nonce msg corpId corpId hn hm,
      if_pos rfl]
  · intro hne
    rw [decryptMessageBytes_encrypt aesEnc aesDec hinv nonce msg corpId corpId2 hn hm,
      if_neg (fun h => hne h.symm)]

/-- Witness for C3: the identity cipher pair, a zero nonce, message bytes
"hi" and corp id bytes "wx"; decryption with the matching id recovers the
message and decryption expecting a different id fails. -/
theorem decrypt_encrypt_roundtrip_witness :
    decryptMessageBytes id [119, 120]
        (encryptMessageBytes id (List.replicate 16 0) [104, 105] [119, 120]) =
      Except.ok [104, 105] ∧
    decryptMessageBytes id [119, 121]
        (encryptMessageBytes id (List.replicate 16 0) [104, 105] [119, 120]) =
      Except.error DecryptError.corpIdMismatch := by
  have h := decrypt_encrypt_roundtrip id id (fun b => rfl)
    (List.replicate 16 0) [104, 105] [119, 120] [119, 121]
    (by decide) (by norm_num)
  exact ⟨h.1, h.2 (by decide)⟩

/-- `Map.set` followed by lookup of the same key yields the new entry. -/
theorem lookupToken_setToken (k : String) (e : TokenEntry) :
    ∀ c : TokenCacheState, lookupToken k (setToken k e c) = some e := by
  intro c
  induction c with
  | nil => simp [setToken, lookupToken]
  | cons hd tl ih =>
    by_cases hk : hd.1 = k
    · simp [setToken, hk, lookupToken]
    · cases hd with
      | mk k0 e0 =>
        simp only at hk
        simp only [setToken, if_neg hk]
        simpa [lookupToken, List.find?_cons, hk] using ih

/-- C6: `getAccessToken` serves the cached token whenever the current time
is strictly before the cached expiry; on a miss or an expired entry it
performs the refresh call and stores expiry `now + (expiresIn − 120) ·
1000`, so a token fetched with `expiresIn = 7200` is served from cache
strictly before `now + 7 080 000 ms` and refreshed at or after that
boundary; a refresh response with a nonzero error code fails with the
upstream code and message. -/
theorem getAccessToken_cache_correct (config : WeComAccountConfig)
    (now now2 : Int) (fetchData fetchData2 : TokenFetchData)
    (cache : TokenCacheState) (e : TokenEntry) :
    (lookupToken (config.corpId ++ ":" ++ config.agentId) cache = some e →
      now < e.expiry →
      getAccessToken config now fetchData cache =
        TokenOutcome.ok e.token cache false) ∧
    ((lookupToken (config.corpId ++ ":" ++ config.agentId) cache = none ∨
      (lookupToken (config.corpId ++ ":" ++ config.agentId) cache = some e ∧
        e.expiry ≤ now)) →
      ((fetchData.errcode = none ∨ fetchData.errcode = some 0) →
        getAccessToken config now fetchData cache =
          TokenOutcome.ok fetchData.access_token
            (setToken (config.corpId ++ ":" ++ config.agentId)
              ⟨fetchData.access_token,
               now + (fetchData.expires_in - 120) * 1000⟩ cache) true) ∧
      (∀ c : Int, fetchData.errcode = some c → c ≠ 0 →
        getAccessToken config now fetchData cache =
          TokenOutcome.fetchFailed c fetchData.errmsg)) ∧
    (fetchData.expires_in = 7200 →
      ∀ cache2 : TokenCacheState,
        cache2 = setToken (config.corpId ++ ":" ++ config.agentId)
          ⟨fetchData.access_token,
           now + (fetchData.expires_in - 120) * 1000⟩ cache →
        ((now2 < now + 7080000 →
           getAccessToken config now2 fetchData2 cache2 =
             TokenOutcome.ok fetchData.access_token cache2 false) ∧
         (now + 7080000 ≤ now2 →
           (fetchData2.errcode = none ∨ fetchData2.errcode = some 0) →
           getAccessToken config now2 fetchData2 cache2 =
             TokenOutcome.ok fetchData2.access_token
               (setToken (config.corpId ++ ":" ++ config.agentId)
                 ⟨fetchData2.access_token,
                  now2 + (fetchData2.expires_in - 120) * 1000⟩ cache2)
               true))) := by
  refine ⟨?_, ?_, ?_⟩
  · intro hlook hfresh
    simp [getAccessToken, hlook, hfresh]
  · intro hmiss
    constructor
    · intro hok
      rcases hmiss with hnone | ⟨hsome, hexp⟩
      · rcases hok with h0 | h0 <;> simp [getAccessToken, hnone, h0]
      · rcases hok with h0 | h0 <;>
          simp [getAccessToken, hsome, h0, not_lt.mpr hexp]
    · intro c hc hcne
      rcases hmiss with hnone | ⟨hsome, hexp⟩
      · simp [getAccessToken, hnone, hc, hcne]
      · simp [getAccessToken, hsome, hc, hcne, not_lt.mpr hexp]
  · intro h7200 cache2 hc2
    have hlook2 : lookupToken (config.corpId ++ ":" ++ config.agentId) cache2 =
        some ⟨fetchData.access_token, now + 7080000⟩ := by
      rw [hc2, h7200]
      have : (7200 - 120 : Int) * 1000 = 7080000 := by norm_num
      rw [this]
      exact lookupToken_setToken _ _ cache
    constructor
    · intro hlt
      simp [getAccessToken, hlook2, hlt]
    · intro hge hok
      have hnl : ¬ now2 < now + 7080000 := not_lt.mpr hge
      rcases hok with h0 | h0 <;> simp [getAccessToken, hlook2, hnl, h0]

/-- Witness for C6: a concrete account, an empty cache, a refresh with
`expiresIn = 7200` at time 0 storing expiry 7 080 000; a call at 7 079 999
is served from cache without a refresh, a call at 7 080 000 refreshes,
and an error envelope `errcode 40001` fails. -/
theorem getAccessToken_cache_correct_witness :
    getAccessToken ⟨"a", true, "w", "s", "1", "t", "k"⟩ 0
        ⟨"tok", 7200, none, ""⟩ [] =
      TokenOutcome.ok "tok" [("w:1", ⟨"tok", 7080000⟩)] true ∧
    getAccessToken ⟨"a", true, "w", "s", "1", "t", "k"⟩ 7079999
        ⟨"tok2", 7200, none, ""⟩ [("w:1", ⟨"tok", 7080000⟩)] =
      TokenOutcome.ok "tok" [("w:1", ⟨"tok", 7080000⟩)] false ∧
    getAccessToken ⟨"a", true, "w", "s", "1", "t", "k"⟩ 7080000
        ⟨"tok2", 7200, none, ""⟩ [("w:1", ⟨"tok", 7080000⟩)] =
      TokenOutcome.ok "tok2" [("w:1", ⟨"tok2", 14160000⟩)] true ∧
    getAccessToken ⟨"a", true, "w", "s", "1", "t", "k"⟩ 0
        ⟨"", 0, some 40001, "invalid credential"⟩ [] =
      TokenOutcome.fetchFailed 40001 "invalid credential" := by
  have base := getAccessToken_cache_correct ⟨"a", true, "w", "s", "1", "t", "k"⟩
    0 7079999 ⟨"tok", 7200, none, ""⟩ ⟨"tok2", 7200, none, ""⟩ []
    ⟨"", 0⟩
  have h1 := (base.2.1 (Or.inl (by decide))).1 (Or.inl rfl)
  have hb := base.2.2 rfl [("w:1", ⟨"tok", 7080000⟩)] (by decide)
  have h2 := hb.1 (by decide)
  have base2 := getAccessToken_cache_correct ⟨"a", true, "w", "s", "1", "t", "k"⟩
    0 7080000 ⟨"tok", 7200, none, ""⟩ ⟨"tok2", 7200, none, ""⟩ []
    ⟨"", 0⟩
  have hb2 := base2.2.2 rfl [("w:1", ⟨"tok", 7080000⟩)] (by decide)
  have h3 := hb2.2 (by decide) (Or.inl rfl)
  have base3 := getAccessToken_cache_correct ⟨"a", true, "w", "s", "1", "t", "k"⟩
    0 0 ⟨"", 0, some 40001, "invalid credential"⟩ ⟨"", 0, none, ""⟩ []
    ⟨"", 0⟩
  have h4 := (base3.2.1 (Or.inl (by decide))).2 40001 rfl (by decide)
  refine ⟨?_, ?_, ?_, h4⟩
  · simpa using h1
  · simpa using h2
  · simpa using h3

/-- C7: when the media-download HTTP response carries a JSON content-type,
the operation fails with the error envelope's `errcode`/`errmsg` and the
filesystem state is returned unchanged — no directory is created and no
file is written. -/
theorem downloadMedia_json_error (df : String → Option String)
    (resp : MediaHttpResponse) (mediaId saveDir : String)
    (filename : Option String) (fs : FsState)
    (hjson : jsIncludes resp.contentType "application/json" = true) :
    downloadMedia df resp mediaId saveDir filename fs =
      (Except.error (MediaError.downloadFailed resp.errcode resp.errmsg), fs) := by
  simp [downloadMedia, hjson]

/-- Witness for C7: a response with content-type `application/json` and
envelope `errcode 40007` fails and leaves the empty filesystem intact. -/
theorem downloadMedia_json_error_witness :
    downloadMedia (fun _ => none)
        ⟨"application/json", 40007, "invalid media id", "", []⟩
        "MID1" "/tmp/wecom-media" none ⟨[], []⟩ =
      (Except.error (MediaError.downloadFailed 40007 "invalid media id"),
        ⟨[], []⟩) :=
  downloadMedia_json_error (fun _ => none)
    ⟨"application/json", 40007, "invalid media id", "", []⟩
    "MID1" "/tmp/wecom-media" none ⟨[], []⟩ (by decide)

/-- C9: a webhook request (any method) whose resolved account is disabled
or has an empty corp id is answered 404 and nothing else happens — the
whole trace is the 404 response, so no signature verification and no
decryption is attempted, and the dedup cache is untouched; in particular a
record with empty corp id is rejected even when its enabled flag is set. -/
theorem webhook_unconfigured_404 (inp : ReqInput) (env : DispatchEnv)
    (now : Nat) (cache : DedupState)
    (hpath : inp.pathOk = true)
    (hbad : inp.account.enabled = false ∨ inp.account.corpId = "") :
    handleWeComWebhook inp env now cache =
      (true, [HAction.respond 404 "Account not found"], cache) := by
  rcases hbad with h | h <;> simp [handleWeComWebhook, hpath, h]

/-- Witness for C9: a POST for an account record whose enabled flag is
`true` but whose corp id is empty is still answered 404. -/
theorem webhook_unconfigured_404_witness :
    handleWeComWebhook
      ⟨true, "POST", some "sig", some "1", some "n", none,
        ⟨"default", true, "", "secret", "1", "tok", "key"⟩, some "E"⟩
      ⟨true, some "<xml/>", (fun _ => ({} : Msg)),
        (fun _ => Except.error "nope"), false⟩ 0 ⟨[]⟩ =
      (true, [HAction.respond 404 "Account not found"], ⟨[]⟩) :=
  webhook_unconfigured_404 _ _ 0 ⟨[]⟩ rfl (Or.inr rfl)

/-- A response write. -/
def isRespondAction : HAction → Bool
  | HAction.respond _ _ => true
  | _ => false

/-- The launch of the detached downstream task. -/
def isDetachedStart : HAction → Bool
  | HAction.detachedStart _ => true
  | _ => false

/-- Downstream work that depends on third-party network calls: media
download, and the detached task (agent routing and reply dispatch). -/
def isNetworkAction : HAction → Bool
  | HAction.mediaDownload _ => true
  | HAction.detachedStart _ => true
  | _ => false

/-- No network-dependent work before the first response write. -/
def ackBeforeNetwork (tr : List HAction) : Bool :=
  !(tr.takeWhile (fun a => !isRespondAction a)).any isNetworkAction

/-- The detached task is only launched after a response write. -/
def ackBeforeDetached (tr : List HAction) : Bool :=
  !(tr.takeWhile (fun a => !isRespondAction a)).any isDetachedStart

/-- Admission of an id not present in the cache: reports new and records
the id at the current time. -/
theorem isMessageProcessed_fresh {id : String} {now : Nat} {s : DedupState}
    (h : ∀ t, (id, t) ∉ s.entries) :
    isMessageProcessed id now s =
      (false, ⟨(dedupCleanup now s).entries ++ [(id, now)]⟩) := by
  have hany : (dedupCleanup now s).entries.any (fun e => e.1 = id) = false := by
    rw [List.any_eq_false]
    intro e he hkey
    have he0 : e ∈ s.entries := mem_dedupCleanup_sub he
    have : e = (id, e.2) := by
      cases e
      simp only [decide_eq_true_eq] at hkey
      simp [hkey]
    exact h e.2 (this ▸ he0)
  simp [isMessageProcessed, hany]

/-- Admission of an id recorded within the TTL: reports duplicate and only
runs the conditional cleanup on the state. -/
theorem isMessageProcessed_dup {id : String} {t now : Nat} {s : DedupState}
    (hmem : (id, t) ∈ s.entries) (hage : now - t ≤ MSG_ID_CACHE_TTL) :
    isMessageProcessed id now s = (true, dedupCleanup now s) := by
  have hs1 : (id, t) ∈ (dedupCleanup now s).entries :=
    mem_dedupCleanup_of_fresh hmem hage
  have hany : (dedupCleanup now s).entries.any (fun e => e.1 = id) = true :=
    List.any_eq_true.mpr ⟨(id, t), hs1, by simp⟩
  simp [isMessageProcessed, hany]

/-- Every action emitted by `processMediaMessage` is a media download. -/
theorem processMediaMessage_actions_benign (env : DispatchEnv) (msg : Msg)
    (t : String) :
    (processMediaMessage env msg t).1.all
      (fun a => !isRespondAction a && !isDetachedStart a) = true := by
  simp only [processMediaMessage]
  repeat' split
  all_goals rfl

/-- Every action emitted by a successful type dispatch is a media
download — never a response write nor the detached launch. -/
theorem typeDispatch_actions_benign (env : DispatchEnv) (msg : Msg)
    (r : List HAction × String) (h : typeDispatch env msg = Except.ok r) :
    r.1.all (fun a => !isRespondAction a && !isDetachedStart a) = true := by
  unfold typeDispatch at h
  repeat' split at h
  all_goals
    first
      | (cases h; rfl)
      | (cases h; exact processMediaMessage_actions_benign env msg _)
      | simp at h

/-- `takeWhile` walks through a prefix on which the predicate holds. -/
theorem takeWhile_append_of_all {α : Type} {p : α → Bool} {A B : List α}
    (h : A.all p = true) : (A ++ B).takeWhile p = A ++ B.takeWhile p := by
  induction A with
  | nil => rfl
  | cons a A ih =>
    rw [List.all_cons, Bool.and_eq_true] at h
    simp [List.takeWhile_cons, h.1, ih h.2]

/-- Every handler trace is either empty (path not handled) or consists of
a prefix free of response writes and detached launches, followed by a
response write, followed only by non-response actions. -/
theorem handleWeComWebhook_trace_shape (inp : ReqInput) (env : DispatchEnv)
    (now : Nat) (cache : DedupState) :
    (handleWeComWebhook inp env now cache).2.1 = [] ∨
    ∃ A s b R, (handleWeComWebhook inp env now cache).2.1 =
        A ++ HAction.respond s b :: R ∧
      A.all (fun a => !isRespondAction a && !isDetachedStart a) = true ∧
      R.all (fun a => !isRespondAction a) = true := by
  suffices hsuf : ∀ tr, (handleWeComWebhook inp env now cache).2.1 = tr →
      tr = [] ∨ ∃ A s b R, tr = A ++ HAction.respond s b :: R ∧
        A.all (fun a => !isRespondAction a && !isDetachedStart a) = true ∧
        R.all (fun a => !isRespondAction a) = true by
    exact hsuf _ rfl
  intro tr h
  rw [handleWeComWebhook.eq_def] at h
  split at h
  · cases h
    exact Or.inl rfl
  split at h
  · cases h
    exact Or.inr ⟨[], 404, "Account not found", [], rfl, rfl, rfl⟩
  split at h
  · -- GET
    split at h
    · cases h
      exact Or.inr ⟨[], 400, "Missing parameters", [], rfl, rfl, rfl⟩
    split at h
    · cases h
      exact Or.inr ⟨[HAction.checkSig], 401, "Invalid signature", [], rfl, rfl, rfl⟩
    split at h
    · rename_i d _
      cases h
      exact Or.inr ⟨[HAction.checkSig, HAction.decryptCall], 200, d, [], rfl, rfl,
        rfl⟩
    · cases h
      exact Or.inr ⟨[HAction.checkSig, HAction.decryptCall], 500,
        "Decrypt failed", [], rfl, rfl, rfl⟩
  split at h
  · -- POST
    split at h
    · cases h
      exact Or.inr ⟨[], 400, "Missing required parameters", [], rfl, rfl, rfl⟩
    split at h
    · cases h
      exact Or.inr ⟨[], 400, "Invalid encrypted message format", [], rfl, rfl, rfl⟩
    split at h
    · cases h
      exact Or.inr ⟨[HAction.checkSig], 401, "Invalid signature", [], rfl, rfl, rfl⟩
    split at h
    · cases h
      exact Or.inr ⟨[HAction.checkSig, HAction.decryptCall], 500,
        "Decrypt failed", [], rfl, rfl, rfl⟩
    rename_i xml hxml
    split at h
    · -- duplicate
      cases h
      exact Or.inr ⟨[HAction.checkSig, HAction.decryptCall,
        HAction.dedupCheck (computeMessageId (env.parse xml))], 200, "success",
        [], rfl, rfl, rfl⟩
    split at h
    · -- dropped by type dispatch
      cases h
      exact Or.inr ⟨[HAction.checkSig, HAction.decryptCall,
        HAction.dedupCheck (computeMessageId (env.parse xml))], 200, "success",
        [], rfl, rfl, rfl⟩
    · rename_i r heq
      have hben := typeDispatch_actions_benign env (env.parse xml) r heq
      split at h
      · -- empty resolved text
        cases h
        refine Or.inr ⟨[HAction.checkSig, HAction.decryptCall,
          HAction.dedupCheck (computeMessageId (env.parse xml))] ++ r.1, 200,
          "success", [], ?_, ?_, rfl⟩
        · rfl
        · rw [List.all_append, hben]
          rfl
      · -- full success path: respond, then the detached launch
        cases h
        refine Or.inr ⟨[HAction.checkSig, HAction.decryptCall,
          HAction.dedupCheck (computeMessageId (env.parse xml))] ++ r.1, 200,
          "success",
          HAction.detachedStart r.2 ::
            (if env.processFails then [HAction.detachedFailed] else []),
          ?_, ?_, ?_⟩
        · rw [List.append_assoc]
          rfl
        · rw [List.all_append, hben]
          rfl
        · cases hpf : env.processFails <;> rfl
  · cases h
    exact Or.inr ⟨[], 405, "Method Not Allowed", [], rfl, rfl, rfl⟩

/-- `dropWhile` crosses a prefix on which the predicate holds. -/
theorem dropWhile_append_of_all {α : Type} {p : α → Bool} {A B : List α}
    (h : A.all p = true) : (A ++ B).dropWhile p = B.dropWhile p := by
  induction A with
  | nil => rfl
  | cons a A ih =>
    rw [List.all_cons, Bool.and_eq_true] at h
    simp [List.dropWhile_cons, h.1, ih h.2]

/-- After the first response write, every remaining action is a
non-response: in particular the detached task's failure logging never
writes to the HTTP response. -/
def singleResponse (tr : List HAction) : Bool :=
  ((tr.dropWhile (fun a => !isRespondAction a)).drop 1).all
    (fun a => !isRespondAction a)

/-- C1 (amended): on every request the handler launches the detached task
(agent routing and reply dispatch) only after a response write, and after
the first response write no further response is ever written — so a
failure of the detached task is logged strictly after the response and can
never surface to it.  Media download, by contrast, runs synchronously
before the acknowledgment (see the counterexample). -/
theorem webhook_ack_before_detached (inp : ReqInput) (env : DispatchEnv)
    (now : Nat) (cache : DedupState) :
    ackBeforeDetached (handleWeComWebhook inp env now cache).2.1 = true ∧
    singleResponse (handleWeComWebhook inp env now cache).2.1 = true := by
  rcases handleWeComWebhook_trace_shape inp env now cache with
    h | ⟨A, s, b, R, hEq, hA, hR⟩
  · rw [h]
    exact ⟨rfl, rfl⟩
  · have hA1 : A.all (fun a => !isRespondAction a) = true := by
      rw [List.all_eq_true] at hA ⊢
      intro a ha
      have h2 := hA a ha
      rw [Bool.and_eq_true] at h2
      exact h2.1
    have hAdet : A.any isDetachedStart = false := by
      rw [List.any_eq_false]
      intro a ha
      rw [List.all_eq_true] at hA
      have h2 := hA a ha
      rw [Bool.and_eq_true] at h2
      simpa using h2.2
    constructor
    · rw [hEq]
      unfold ackBeforeDetached
      rw [takeWhile_append_of_all hA1]
      have hstop : (HAction.respond s b :: R).takeWhile
          (fun a => !isRespondAction a) = [] := rfl
      rw [hstop, List.append_nil, hAdet]
      rfl
    · rw [hEq]
      unfold singleResponse
      rw [dropWhile_append_of_all hA1]
      exact hR

/-- C1 counterexample: a POST delivery of an image message that passes
signature verification, decryption and dedup admission performs the media
download synchronously before emitting the 200 "success" response — the
download action precedes the response write in the trace — refuting the
claim that the response is emitted before any network-dependent
downstream work. -/
theorem webhook_ack_before_network_counterexample :
    ackBeforeNetwork
      (handleWeComWebhook
        ⟨true, "POST", some "s", some "1", some "n", none,
          ⟨"default", true, "wx1", "sec", "1", "tok", "key"⟩, some "ENC"⟩
        ⟨true, some "<xml/>",
          (fun _ => { MsgType := some "image", FromUserName := some "u",
                      CreateTime := some "100", MsgId := some "m1",
                      MediaId := some "media9" }),
          (fun _ => Except.ok "/tmp/wecom-media/media9.jpg"), false⟩
        0 ⟨[]⟩).2.1 = false ∧
    (handleWeComWebhook
        ⟨true, "POST", some "s", some "1", some "n", none,
          ⟨"default", true, "wx1", "sec", "1", "tok", "key"⟩, some "ENC"⟩
        ⟨true, some "<xml/>",
          (fun _ => { MsgType := some "image", FromUserName := some "u",
                      CreateTime := some "100", MsgId := some "m1",
                      MediaId := some "media9" }),
          (fun _ => Except.ok "/tmp/wecom-media/media9.jpg"), false⟩
        0 ⟨[]⟩).2.1 =
      [HAction.checkSig, HAction.decryptCall, HAction.dedupCheck "m1",
       HAction.mediaDownload "media9", HAction.respond 200 "success",
       HAction.detachedStart "[图片] /tmp/wecom-media/media9.jpg"] := by
  constructor
  · rfl
  · rfl

/-- C10: the dedup cache records the computed message id at the admission
check, before type dispatch; consequently even when the first delivery is
acknowledged-and-dropped (unknown message type, an unsubscribe or
unrecognized event, or an empty resolved text), an identical retry within
the TTL window takes the duplicate branch: it is answered 200 "success"
immediately after the dedup check, with no media download and no detached
dispatch. -/
theorem webhook_retry_after_drop_is_duplicate (inp : ReqInput)
    (env : DispatchEnv) (now now2 : Nat) (cache : DedupState) (xml : String)
    (hpath : inp.pathOk = true) (hmeth : inp.method = "POST")
    (hen : inp.account.enabled = true) (hcorp : inp.account.corpId ≠ "")
    (hsig : truthy inp.msgSignature = true) (hts : truthy inp.timestamp = true)
    (hnon : truthy inp.nonce = true)
    (hext : inp.encryptExtract.isSome = true)
    (hvalid : env.sigValid = true) (hdec : env.decrypted = some xml)
    (hdrop : typeDispatch env (env.parse xml) = Except.error () ∨
      ∃ r, typeDispatch env (env.parse xml) = Except.ok r ∧ r.2 = "")
    (hfresh : ∀ t, (computeMessageId (env.parse xml), t) ∉ cache.entries)
    (hage : now2 - now ≤ MSG_ID_CACHE_TTL) :
    (computeMessageId (env.parse xml), now) ∈
      (handleWeComWebhook inp env now cache).2.2.entries ∧
    (handleWeComWebhook inp env now cache).2.1.all
      (fun a => !isDetachedStart a) = true ∧
    handleWeComWebhook inp env now2 (handleWeComWebhook inp env now cache).2.2 =
      (true,
       [HAction.checkSig, HAction.decryptCall,
        HAction.dedupCheck (computeMessageId (env.parse xml)),
        HAction.respond 200 "success"],
       dedupCleanup now2 (handleWeComWebhook inp env now cache).2.2) := by
  obtain ⟨e, he⟩ := Option.isSome_iff_exists.mp hext
  have hfirstDedup := @isMessageProcessed_fresh
    (computeMessageId (env.parse xml)) now cache hfresh
  have hfirst : (handleWeComWebhook inp env now cache).2.2 =
      DedupState.mk ((dedupCleanup now cache).entries ++
        [(computeMessageId (env.parse xml), now)]) ∧
      (handleWeComWebhook inp env now cache).2.1.all
        (fun a => !isDetachedStart a) = true := by
    rcases hdrop with hd | ⟨r, hd, hr2⟩
    · constructor <;>
        simp [handleWeComWebhook, hpath, hmeth, hen, hcorp, hsig, hts, hnon,
          he, hvalid, hdec, hfirstDedup, hd, isDetachedStart]
    · have hben := typeDispatch_actions_benign env (env.parse xml) r hd
      have hbenD : ∀ x ∈ r.1, isDetachedStart x = false := by
        rw [List.all_eq_true] at hben
        intro x hx
        have h2 := hben x hx
        rw [Bool.and_eq_true] at h2
        simpa using h2.2
      refine ⟨?_, ?_⟩
      · simp [handleWeComWebhook, hpath, hmeth, hen, hcorp, hsig, hts, hnon,
          he, hvalid, hdec, hfirstDedup, hd, hr2]
      · simp [handleWeComWebhook, hpath, hmeth, hen, hcorp, hsig, hts, hnon,
          he, hvalid, hdec, hfirstDedup, hd, hr2, List.all_append,
          isDetachedStart]
        exact fun x hx => hbenD x hx
  have hmem : (computeMessageId (env.parse xml), now) ∈
      (handleWeComWebhook inp env now cache).2.2.entries := by
    rw [hfirst.1]
    exact List.mem_append_right _ (List.mem_singleton.mpr rfl)
  refine ⟨hmem, hfirst.2, ?_⟩
  have hsecondDedup := @isMessageProcessed_dup
    (computeMessageId (env.parse xml)) now now2
    (handleWeComWebhook inp env now cache).2.2 hmem hage
  set st1 := (handleWeComWebhook inp env now cache).2.2 with hst1
  simp [handleWeComWebhook, hpath, hmeth, hen, hcorp, hsig, hts, hnon,
    he, hvalid, hdec, hsecondDedup]

/-- Witness for C10: a message of unknown type "weird" with id "m1" is
acknowledged-and-dropped on first delivery, recorded in the cache, and a
retry one second later is answered straight from the duplicate branch. -/
theorem webhook_retry_after_drop_is_duplicate_witness :
    ("m1", 0) ∈
      (handleWeComWebhook
        ⟨true, "POST", some "s", some "1", some "n", none,
          ⟨"default", true, "wx1", "sec", "1", "tok", "key"⟩, some "ENC"⟩
        ⟨true, some "<xml/>",
          (fun _ => { MsgType := some "weird", MsgId := some "m1" }),
          (fun _ => Except.error "x"), false⟩ 0 ⟨[]⟩).2.2.entries ∧
    (handleWeComWebhook
        ⟨true, "POST", some "s", some "1", some "n", none,
          ⟨"default", true, "wx1", "sec", "1", "tok", "key"⟩, some "ENC"⟩
        ⟨true, some "<xml/>",
          (fun _ => { MsgType := some "weird", MsgId := some "m1" }),
          (fun _ => Except.error "x"), false⟩ 0 ⟨[]⟩).2.1.all
      (fun a => !isDetachedStart a) = true ∧
    handleWeComWebhook
        ⟨true, "POST", some "s", some "1", some "n", none,
          ⟨"default", true, "wx1", "sec", "1", "tok", "key"⟩, some "ENC"⟩
        ⟨true, some "<xml/>",
          (fun _ => { MsgType := some "weird", MsgId := some "m1" }),
          (fun _ => Except.error "x"), false⟩ 1000
        (handleWeComWebhook
          ⟨true, "POST", some "s", some "1", some "n", none,
            ⟨"default", true, "wx1", "sec", "1", "tok", "key"⟩, some "ENC"⟩
          ⟨true, some "<xml/>",
            (fun _ => { MsgType := some "weird", MsgId := some "m1" }),
            (fun _ => Except.error "x"), false⟩ 0 ⟨[]⟩).2.2 =
      (true,
       [HAction.checkSig, HAction.decryptCall, HAction.dedupCheck "m1",
        HAction.respond 200 "success"],
       dedupCleanup 1000
         (handleWeComWebhook
           ⟨true, "POST", some "s", some "1", some "n", none,
             ⟨"default", true, "wx1", "sec", "1", "tok", "key"⟩, some "ENC"⟩
           ⟨true, some "<xml/>",
             (fun _ => { MsgType := some "weird", MsgId := some "m1" }),
             (fun _ => Except.error "x"), false⟩ 0 ⟨[]⟩).2.2) :=
  webhook_retry_after_drop_is_duplicate
    ⟨true, "POST", some "s", some "1", some "n", none,
      ⟨"default", true, "wx1", "sec", "1", "tok", "key"⟩, some "ENC"⟩
    ⟨true, some "<xml/>",
      (fun _ => { MsgType := some "weird", MsgId := some "m1" }),
      (fun _ => Except.error "x"), false⟩ 0 1000 ⟨[]⟩ "<xml/>"
    rfl rfl rfl (by decide) rfl rfl rfl rfl rfl rfl
    (Or.inl rfl) (by simp) (by decide)

/-! Helper layer for the outbound router claims: the branch (`PathKind`)
each attempt came from, and the per-block attempt characterizations. -/

/-- The ordered list of branches that invoked `sendMediaFile`. -/
def attemptedKinds (tr : List SendAction) : List PathKind :=
  tr.filterMap (fun a => match a with
    | SendAction.attempt k _ => some k
    | _ => none)

/-- Priority rank of the router's branches, in source order. -/
def kindRank : PathKind → Nat
  | PathKind.mediaUrl => 0
  | PathKind.mediaUrls => 1
  | PathKind.image => 2
  | PathKind.file => 3
  | PathKind.video => 4
  | PathKind.voiceAudio => 5
  | PathKind.textScan => 6

/-- The path a legacy media field resolves to (`ref.path || ref.url`),
when the field is present and the resolved path truthy. -/
def refPath : Option MediaRef → Option String
  | some r =>
    if truthy (jsOr r.path r.url) then some ((jsOr r.path r.url).getD "")
    else none
  | none => none

theorem attemptedKinds_nil : attemptedKinds [] = [] := rfl

theorem attemptedKinds_append (l1 l2 : List SendAction) :
    attemptedKinds (l1 ++ l2) = attemptedKinds l1 ++ attemptedKinds l2 := by
  simp [attemptedKinds]

theorem attemptedKinds_cons_attempt (k : PathKind) (fp : String)
    (tr : List SendAction) :
    attemptedKinds (SendAction.attempt k fp :: tr) = k :: attemptedKinds tr := rfl

theorem attemptedKinds_sendMediaFile (env : SendEnv) (fp : String) :
    attemptedKinds (sendMediaFile env fp).2 = [] := by
  simp only [sendMediaFile]
  repeat' split
  all_goals rfl

theorem mem_attemptedKinds_of_attempt {k : PathKind} {fp : String}
    {tr : List SendAction} (h : SendAction.attempt k fp ∈ tr) :
    k ∈ attemptedKinds tr :=
  List.mem_filterMap.mpr ⟨SendAction.attempt k fp, h, rfl⟩

theorem kinds_mediaUrlStep (env : SendEnv) (p : ReplyPayload) :
    attemptedKinds (mediaUrlStep env p).2 =
      if truthy p.mediaUrl = true then [PathKind.mediaUrl] else [] := by
  by_cases ht : truthy p.mediaUrl = true <;>
    simp [mediaUrlStep, ht, attemptedKinds_cons_attempt,
      attemptedKinds_sendMediaFile, attemptedKinds_nil]

theorem kinds_sendUrlList (env : SendEnv) :
    ∀ urls : List String, attemptedKinds (sendUrlList env urls).2 =
      urls.map (fun _ => PathKind.mediaUrls)
  | [] => rfl
  | fp :: rest => by
    simp only [sendUrlList]
    rw [attemptedKinds_append, attemptedKinds_cons_attempt,
      attemptedKinds_sendMediaFile, kinds_sendUrlList env rest]
    rfl

theorem mem_sendUrlList (env : SendEnv) :
    ∀ urls : List String, ∀ fp ∈ urls,
      SendAction.attempt PathKind.mediaUrls fp ∈ (sendUrlList env urls).2
  | [], _, h => absurd h (List.not_mem_nil _)
  | u :: rest, fp, h => by
    simp only [sendUrlList]
    rcases List.mem_cons.mp h with h1 | h2
    · subst h1
      exact List.mem_append_left _ (List.mem_cons_self _ _)
    · exact List.mem_append_right _ (mem_sendUrlList env rest fp h2)

theorem kinds_mediaUrlsStep (env : SendEnv) (p : ReplyPayload) :
    attemptedKinds (mediaUrlsStep env p).2 =
      (p.mediaUrls.getD []).map (fun _ => PathKind.mediaUrls) := by
  cases hml : p.mediaUrls with
  | none => simp [mediaUrlsStep, hml, attemptedKinds_nil]
  | some urls =>
    by_cases hlen : urls.length > 0
    · simp [mediaUrlsStep, hml, hlen, kinds_sendUrlList]
    · have hnil : urls = [] := List.length_eq_zero.mp (by omega)
      subst hnil
      simp [mediaUrlsStep, hml, attemptedKinds_nil]

theorem mem_mediaUrlsStep (env : SendEnv) (p : ReplyPayload) {urls : List String}
    (hml : p.mediaUrls = some urls) {fp : String} (h : fp ∈ urls) :
    SendAction.attempt PathKind.mediaUrls fp ∈ (mediaUrlsStep env p).2 := by
  have hlen : urls.length > 0 := List.length_pos.mpr (List.ne_nil_of_mem h)
  simp only [mediaUrlsStep, hml, if_pos hlen]
  exact mem_sendUrlList env urls fp h

theorem kinds_legacyRefStep (env : SendEnv) (k : PathKind)
    (ref : Option MediaRef) :
    attemptedKinds (legacyRefStep env k ref).2 =
      if (refPath ref).isSome = true then [k] else [] := by
  cases ref with
  | none => rfl
  | some r =>
    by_cases ht : truthy (jsOr r.path r.url) = true <;>
      simp [legacyRefStep, refPath, ht, attemptedKinds_cons_attempt,
        attemptedKinds_sendMediaFile, attemptedKinds_nil]

theorem mem_legacyRefStep (env : SendEnv) (k : PathKind) {ref : Option MediaRef}
    {fp : String} (h : refPath ref = some fp) :
    SendAction.attempt k fp ∈ (legacyRefStep env k ref).2 := by
  cases ref with
  | none => cases h
  | some r =>
    by_cases ht : truthy (jsOr r.path r.url) = true
    · have hfp : (jsOr r.path r.url).getD "" = fp := by
        simpa [refPath, ht] using h
      simp [legacyRefStep, ht, hfp]
    · simp [refPath, ht] at h

theorem attemptedKinds_sentText (s : String) :
    attemptedKinds [SendAction.sentText s] = [] := rfl

theorem kinds_implicitTextStep (env : SendEnv) (t : String) (m : Bool) :
    ∀ k ∈ attemptedKinds (implicitTextStep env t m).1, k = PathKind.textScan := by
  intro k hk
  simp only [implicitTextStep] at hk
  repeat' split at hk
  all_goals
    simp_all [attemptedKinds_append, attemptedKinds_cons_attempt,
      attemptedKinds_sendMediaFile, attemptedKinds_nil, attemptedKinds_sentText]

theorem kinds_textStep (t : String) (m r : Bool) :
    attemptedKinds (textStep t m r) = [] := by
  unfold textStep
  repeat' split
  all_goals rfl

/-- A list whose members all share one kind is rank-monotone. -/
theorem pairwise_rank_of_constant (k0 : PathKind) {l : List PathKind}
    (h : ∀ k ∈ l, k = k0) :
    l.Pairwise (fun a b => kindRank a ≤ kindRank b) := by
  induction l with
  | nil => exact List.Pairwise.nil
  | cons a l ih =>
    refine List.Pairwise.cons ?_ (ih fun k hk => h k (List.mem_cons_of_mem _ hk))
    intro b hb
    rw [h a (List.mem_cons_self _ _), h b (List.mem_cons_of_mem _ hb)]

/-- Concatenating a lower-ranked block before a higher-ranked one keeps
rank-monotonicity. -/
theorem pairwise_rank_concat {l r : List PathKind} {n : Nat}
    (hl : ∀ k ∈ l, kindRank k ≤ n) (hr : ∀ k ∈ r, n ≤ kindRank k)
    (pl : l.Pairwise (fun a b => kindRank a ≤ kindRank b))
    (pr : r.Pairwise (fun a b => kindRank a ≤ kindRank b)) :
    (l ++ r).Pairwise (fun a b => kindRank a ≤ kindRank b) :=
  List.pairwise_append.mpr
    ⟨pl, pr, fun a ha b hb => le_trans (hl a ha) (hr b hb)⟩

/-- Eight consecutive blocks of constant kinds in source order form a
rank-monotone list. -/
theorem pairwise_rank_blocks8 {K1 K2 K3 K4 K5 K6 K7 K8 : List PathKind}
    (h1 : ∀ k ∈ K1, k = PathKind.mediaUrl)
    (h2 : ∀ k ∈ K2, k = PathKind.mediaUrls)
    (h3 : ∀ k ∈ K3, k = PathKind.image)
    (h4 : ∀ k ∈ K4, k = PathKind.file)
    (h5 : ∀ k ∈ K5, k = PathKind.video)
    (h6 : ∀ k ∈ K6, k = PathKind.voiceAudio)
    (h7 : ∀ k ∈ K7, k = PathKind.textScan)
    (h8 : ∀ k ∈ K8, k = PathKind.textScan) :
    (K1 ++ K2 ++ K3 ++ K4 ++ K5 ++ K6 ++ K7 ++ K8).Pairwise
      (fun a b => kindRank a ≤ kindRank b) := by
  have b2 : ∀ k ∈ K1 ++ K2, kindRank k ≤ 1 := by
    intro k hk
    rcases List.mem_append.mp hk with h | h
    · rw [h1 k h]; decide
    · rw [h2 k h]; decide
  have p2 := pairwise_rank_concat (n := 1)
    (fun k hk => by rw [h1 k hk]; decide) (fun k hk => by rw [h2 k hk]; decide)
    (pairwise_rank_of_constant _ h1) (pairwise_rank_of_constant _ h2)
  have b3 : ∀ k ∈ K1 ++ K2 ++ K3, kindRank k ≤ 2 := by
    intro k hk
    rcases List.mem_append.mp hk with h | h
    · exact le_trans (b2 k h) (by decide)
    · rw [h3 k h]; decide
  have p3 := pairwise_rank_concat (n := 2)
    (fun k hk => le_trans (b2 k hk) (by decide))
    (fun k hk => by rw [h3 k hk]; decide)
    p2 (pairwise_rank_of_constant _ h3)
  have b4 : ∀ k ∈ K1 ++ K2 ++ K3 ++ K4, kindRank k ≤ 3 := by
    intro k hk
    rcases List.mem_append.mp hk with h | h
    · exact le_trans (b3 k h) (by decide)
    · rw [h4 k h]; decide
  have p4 := pairwise_rank_concat (n := 3)
    (fun k hk => le_trans (b3 k hk) (by decide))
    (fun k hk => by rw [h4 k hk]; decide)
    p3 (pairwise_rank_of_constant _ h4)
  have b5 : ∀ k ∈ K1 ++ K2 ++ K3 ++ K4 ++ K5, kindRank k ≤ 4 := by
    intro k hk
    rcases List.mem_append.mp hk with h | h
    · exact le_trans (b4 k h) (by decide)
    · rw [h5 k h]; decide
  have p5 := pairwise_rank_concat (n := 4)
    (fun k hk => le_trans (b4 k hk) (by decide))
    (fun k hk => by rw [h5 k hk]; decide)
    p4 (pairwise_rank_of_constant _ h5)
  have b6 : ∀ k ∈ K1 ++ K2 ++ K3 ++ K4 ++ K5 ++ K6, kindRank k ≤ 5 := by
    intro k hk
    rcases List.mem_append.mp hk with h | h
    · exact le_trans (b5 k h) (by decide)
    · rw [h6 k h]; decide
  have p6 := pairwise_rank_concat (n := 5)
    (fun k hk => le_trans (b5 k hk) (by decide))
    (fun k hk => by rw [h6 k hk]; decide)
    p5 (pairwise_rank_of_constant _ h6)
  have b7 : ∀ k ∈ K1 ++ K2 ++ K3 ++ K4 ++ K5 ++ K6 ++ K7, kindRank k ≤ 6 := by
    intro k hk
    rcases List.mem_append.mp hk with h | h
    · exact le_trans (b6 k h) (by decide)
    · rw [h7 k h]; decide
  have p7 := pairwise_rank_concat (n := 6)
    (fun k hk => le_trans (b6 k hk) (by decide))
    (fun k hk => by rw [h7 k hk]; decide)
    p6 (pairwise_rank_of_constant _ h7)
  exact pairwise_rank_concat (n := 6)
    (fun k hk => b7 k hk)
    (fun k hk => by rw [h8 k hk]; decide)
    p7 (pairwise_rank_of_constant _ h8)

/-- C2 (amended): the router checks the media paths in the fixed source
order — primary reference, list of references (each entry attempted
sequentially, partial failures not aborting the rest), then the legacy
image, file, video, and voice/audio fields — as witnessed by the
rank-monotone order of the attempts in the trace; but only the legacy
image path is skipped once an earlier path has sent media: the file,
video, voice/audio paths (and every list entry) are attempted whenever
their field carries a truthy path, regardless of earlier sends. -/
theorem deliver_structured_priority (env : SendEnv) (p : ReplyPayload) :
    (∀ fp, p.mediaUrl = some fp → fp ≠ "" →
      SendAction.attempt PathKind.mediaUrl fp ∈ deliver env p) ∧
    (∀ urls, p.mediaUrls = some urls → ∀ fp ∈ urls,
      SendAction.attempt PathKind.mediaUrls fp ∈ deliver env p) ∧
    (∀ fp, refPath p.file = some fp →
      SendAction.attempt PathKind.file fp ∈ deliver env p) ∧
    (∀ fp, refPath p.video = some fp →
      SendAction.attempt PathKind.video fp ∈ deliver env p) ∧
    (∀ fp, refPath (match p.voice with | some v => some v | none => p.audio) =
        some fp →
      SendAction.attempt PathKind.voiceAudio fp ∈ deliver env p) ∧
    (PathKind.image ∈ attemptedKinds (deliver env p) ↔
      (mediaUrlStep env p).1 = false ∧ (mediaUrlsStep env p).1 = false ∧
        (refPath p.image).isSome = true) ∧
    (attemptedKinds (deliver env p)).Pairwise
      (fun a b => kindRank a ≤ kindRank b) := by
  refine ⟨?_, ?_, ?_, ?_, ?_, ?_, ?_⟩
  · intro fp hfp hne
    have hmem : SendAction.attempt PathKind.mediaUrl fp ∈ (mediaUrlStep env p).2 := by
      have ht : truthy (some fp) = true := by simp [truthy, hne]
      simp only [mediaUrlStep, hfp, if_pos ht]
      exact List.mem_cons_self _ _
    simp only [deliver, List.mem_append]
    tauto
  · intro urls hurls fp hfp
    have hmem := mem_mediaUrlsStep env p hurls hfp
    simp only [deliver, List.mem_append]
    tauto
  · intro fp hfp
    have hmem := mem_legacyRefStep env PathKind.file hfp
    simp only [deliver, List.mem_append]
    tauto
  · intro fp hfp
    have hmem := mem_legacyRefStep env PathKind.video hfp
    simp only [deliver, List.mem_append]
    tauto
  · intro fp hfp
    have hmem := mem_legacyRefStep env PathKind.voiceAudio hfp
    simp only [deliver, List.mem_append]
    tauto
  · constructor
    · intro hk
      simp only [deliver, attemptedKinds_append, List.mem_append] at hk
      rcases hk with ((((((hk | hk) | hk) | hk) | hk) | hk) | hk) | hk
      · rw [kinds_mediaUrlStep] at hk
        revert hk
        split <;> simp
      · rw [kinds_mediaUrlsStep] at hk
        simp at hk
      · revert hk
        split
        · rename_i hm2
          rw [kinds_legacyRefStep]
          intro hk
          refine ⟨?_, ?_, ?_⟩
          · rcases Bool.or_eq_false_iff.mp (by simpa using hm2) with ⟨h1, h2⟩
            exact h1
          · rcases Bool.or_eq_false_iff.mp (by simpa using hm2) with ⟨h1, h2⟩
            exact h2
          · revert hk
            split <;> simp_all
        · intro hk
          cases hk
      · rw [kinds_legacyRefStep] at hk
        revert hk
        split <;> simp
      · rw [kinds_legacyRefStep] at hk
        revert hk
        split <;> simp
      · rw [kinds_legacyRefStep] at hk
        revert hk
        split <;> simp
      · have := kinds_implicitTextStep env _ _ _ hk
        cases this
      · rw [kinds_textStep] at hk
        cases hk
    · rintro ⟨h1, h2, h3⟩
      obtain ⟨fp, hfp⟩ := Option.isSome_iff_exists.mp h3
      have hm2 : ((mediaUrlStep env p).1 || (mediaUrlsStep env p).1) = false := by
        rw [h1, h2]
        rfl
      have hmem : SendAction.attempt PathKind.image fp ∈
          (if !((mediaUrlStep env p).1 || (mediaUrlsStep env p).1) then
            legacyRefStep env PathKind.image p.image else (false, [])).2 := by
        rw [hm2]
        exact mem_legacyRefStep env PathKind.image hfp
      have hkmem := mem_attemptedKinds_of_attempt hmem
      simp only [deliver, attemptedKinds_append, List.mem_append]
      tauto
  · simp only [deliver, attemptedKinds_append]
    have hc1 : ∀ k ∈ attemptedKinds (mediaUrlStep env p).2,
        k = PathKind.mediaUrl := by
      intro k hk
      rw [kinds_mediaUrlStep] at hk
      revert hk
      split <;> simp
    have hc2 : ∀ k ∈ attemptedKinds (mediaUrlsStep env p).2,
        k = PathKind.mediaUrls := by
      intro k hk
      rw [kinds_mediaUrlsStep] at hk
      simp at hk
      exact hk.2
    have hc3 : ∀ k ∈ attemptedKinds
        (if !((mediaUrlStep env p).1 || (mediaUrlsStep env p).1) then
          legacyRefStep env PathKind.image p.image else (false, [])).2,
        k = PathKind.image := by
      intro k hk
      revert hk
      split
      · rw [kinds_legacyRefStep]
        split <;> simp
      · intro hk
        cases hk
    have hc4 : ∀ k ∈ attemptedKinds (legacyRefStep env PathKind.file p.file).2,
        k = PathKind.file := by
      intro k hk
      rw [kinds_legacyRefStep] at hk
      revert hk
      split <;> simp
    have hc5 : ∀ k ∈ attemptedKinds (legacyRefStep env PathKind.video p.video).2,
        k = PathKind.video := by
      intro k hk
      rw [kinds_legacyRefStep] at hk
      revert hk
      split <;> simp
    have hc6 : ∀ k ∈ attemptedKinds (legacyRefStep env PathKind.voiceAudio
        (match p.voice with | some v => some v | none => p.audio)).2,
        k = PathKind.voiceAudio := by
      intro k hk
      rw [kinds_legacyRefStep] at hk
      revert hk
      split <;> simp
    exact pairwise_rank_blocks8 hc1 hc2 hc3 hc4 hc5 hc6
      (kinds_implicitTextStep env _ _)
      (by rw [kinds_textStep]; intro k hk; cases hk)

/-- Counterexample for C2: a payload carrying both a primary media
reference and a legacy file field.  The primary path is taken and its send
succeeds, yet the legacy file path is still attempted afterwards — two
structured paths are attempted and a later structured path runs after one
was taken, refuting the "exactly one structured path" claim. -/
theorem deliver_structured_counterexample :
    deliver ⟨fun _ => true, fun _ => true, fun _ => none⟩
        ⟨some "/a.png", none, none, some ⟨some "/b.pdf", none⟩, none, none,
          none, none, none⟩ =
      [SendAction.attempt PathKind.mediaUrl "/a.png",
       SendAction.sentMedia "/a.png" MediaType.image,
       SendAction.attempt PathKind.file "/b.pdf",
       SendAction.sentMedia "/b.pdf" MediaType.file] ∧
    attemptedKinds (deliver ⟨fun _ => true, fun _ => true, fun _ => none⟩
        ⟨some "/a.png", none, none, some ⟨some "/b.pdf", none⟩, none, none,
          none, none, none⟩) = [PathKind.mediaUrl, PathKind.file] := by
  constructor
  · rfl
  · rfl

/-- Witness for C2 (amended): with every structured field populated and
all sends succeeding, the primary reference, every list entry, the file
field, and the audio field are all attempted, while the legacy image path
is skipped because an earlier path already sent media. -/
theorem deliver_structured_priority_witness :
    SendAction.attempt PathKind.mediaUrl "/a.png" ∈
      deliver ⟨fun _ => true, fun _ => true, fun _ => none⟩
        ⟨some "/a.png", some ["/b.jpg", "/c.jpg"], some ⟨some "/i.png", none⟩,
          some ⟨some "/f.pdf", none⟩, none, none, some ⟨some "/v.mp3", none⟩,
          none, none⟩ ∧
    SendAction.attempt PathKind.mediaUrls "/c.jpg" ∈
      deliver ⟨fun _ => true, fun _ => true, fun _ => none⟩
        ⟨some "/a.png", some ["/b.jpg", "/c.jpg"], some ⟨some "/i.png", none⟩,
          some ⟨some "/f.pdf", none⟩, none, none, some ⟨some "/v.mp3", none⟩,
          none, none⟩ ∧
    SendAction.attempt PathKind.file "/f.pdf" ∈
      deliver ⟨fun _ => true, fun _ => true, fun _ => none⟩
        ⟨some "/a.png", some ["/b.jpg", "/c.jpg"], some ⟨some "/i.png", none⟩,
          some ⟨some "/f.pdf", none⟩, none, none, some ⟨some "/v.mp3", none⟩,
          none, none⟩ ∧
    SendAction.attempt PathKind.voiceAudio "/v.mp3" ∈
      deliver ⟨fun _ => true, fun _ => true, fun _ => none⟩
        ⟨some "/a.png", some ["/b.jpg", "/c.jpg"], some ⟨some "/i.png", none⟩,
          some ⟨some "/f.pdf", none⟩, none, none, some ⟨some "/v.mp3", none⟩,
          none, none⟩ ∧
    PathKind.image ∉ attemptedKinds
      (deliver ⟨fun _ => true, fun _ => true, fun _ => none⟩
        ⟨some "/a.png", some ["/b.jpg", "/c.jpg"], some ⟨some "/i.png", none⟩,
          some ⟨some "/f.pdf", none⟩, none, none, some ⟨some "/v.mp3", none⟩,
          none, none⟩) := by
  refine ⟨(deliver_structured_priority _ _).1 "/a.png" rfl (by decide),
    (deliver_structured_priority _ _).2.1 ["/b.jpg", "/c.jpg"] rfl "/c.jpg"
      (by decide),
    (deliver_structured_priority _ _).2.2.1 "/f.pdf" (by decide),
    (deliver_structured_priority _ _).2.2.2.2.1 "/v.mp3" (by decide), ?_⟩
  intro hmem
  have h := ((deliver_structured_priority
    ⟨fun _ => true, fun _ => true, fun _ => none⟩
    ⟨some "/a.png", some ["/b.jpg", "/c.jpg"], some ⟨some "/i.png", none⟩,
      some ⟨some "/f.pdf", none⟩, none, none, some ⟨some "/v.mp3", none⟩,
      none, none⟩).2.2.2.2.2.1).mp hmem
  exact absurd h.1 (by decide)

/-- C8 (amended): when no structured field yields media and the free text
contains a media path that exists on disk and sends successfully, the
path is sent as media and then the remaining text (path substring removed,
trimmed) is sent as a text message — unless it is empty or contains one of
the failure keywords 无法/失败/错误/缺失/Bug, in which case it is
suppressed.  (An apology prefix alone, e.g. 抱歉, is not suppressed on
this branch; see the counterexample.) -/
theorem deliver_implicit_path (env : SendEnv) (p : ReplyPayload) (mp : String)
    (h1 : p.mediaUrl = none) (h2 : p.mediaUrls = none) (h3 : p.image = none)
    (h4 : p.file = none) (h5 : p.video = none) (h6 : p.voice = none)
    (h7 : p.audio = none)
    (hm : env.matchMediaPath (jsOrEmpty (jsOr p.text p.body)) = some mp)
    (hex : env.fsExists mp = true) (hok : env.sendOk mp = true) :
    deliver env p =
      SendAction.attempt PathKind.textScan mp ::
      SendAction.sentMedia mp
        (if getMediaType mp = MediaType.voice &&
            !jsEndsWith (jsToLower mp) ".amr" then MediaType.file
         else getMediaType mp) ::
      (if jsTrim (jsRemoveFirst (jsOrEmpty (jsOr p.text p.body)) mp) ≠ "" &&
          !hasFailureWord (jsTrim (jsRemoveFirst (jsOrEmpty (jsOr p.text p.body)) mp))
        then [SendAction.sentText
          (jsTrim (jsRemoveFirst (jsOrEmpty (jsOr p.text p.body)) mp))]
        else []) := by
  have hsend : sendMediaFile env mp =
      (true, [SendAction.sentMedia mp
        (if getMediaType mp = MediaType.voice &&
            !jsEndsWith (jsToLower mp) ".amr" then MediaType.file
         else getMediaType mp)]) := by
    simp [sendMediaFile, hex, hok]
  by_cases hc : (jsTrim (jsRemoveFirst (jsOrEmpty (jsOr p.text p.body)) mp) ≠ "" &&
      !hasFailureWord (jsTrim (jsRemoveFirst (jsOrEmpty (jsOr p.text p.body)) mp))) = true
  all_goals
    simp only [deliver, mediaUrlStep, mediaUrlsStep, legacyRefStep,
      implicitTextStep, textStep, h1, h2, h3, h4, h5, h6, h7, hm, hex, hsend]
  · have hc2 : ¬jsTrim (jsRemoveFirst (jsOrEmpty (jsOr p.text p.body)) mp) = "" ∧
        hasFailureWord (jsTrim (jsRemoveFirst (jsOrEmpty (jsOr p.text p.body))
          mp)) = false := by
      simpa using hc
    simp [truthy, hc2.1, hc2.2]
  · have hc2 : jsTrim (jsRemoveFirst (jsOrEmpty (jsOr p.text p.body)) mp) = "" ∨
        hasFailureWord (jsTrim (jsRemoveFirst (jsOrEmpty (jsOr p.text p.body))
          mp)) = true := by
      by_contra hcon
      push_neg at hcon
      have hf : hasFailureWord (jsTrim (jsRemoveFirst
          (jsOrEmpty (jsOr p.text p.body)) mp)) = false := by
        cases hval : hasFailureWord (jsTrim (jsRemoveFirst
            (jsOrEmpty (jsOr p.text p.body)) mp))
        · rfl
        · exact absurd hval hcon.2
      exact hc (by simp [hcon.1, hf])
    rcases hc2 with h | h <;> simp [truthy, h]

/-- Counterexample for C8: a reply whose text is a media path followed by
a bare apology "抱歉".  The path is sent as an image, and the remaining
text "抱歉" — which begins with an apology phrase but contains no failure
keyword — is then sent as a text message rather than suppressed, refuting
the claim that apology-prefixed remainders are suppressed on this
branch. -/
theorem deliver_implicit_path_counterexample :
    deliver
        ⟨fun _ => true, fun _ => true,
          fun s => if s = "/x/a.png 抱歉" then some "/x/a.png" else none⟩
        ⟨none, none, none, none, none, none, none, some "/x/a.png 抱歉",
          none⟩ =
      [SendAction.attempt PathKind.textScan "/x/a.png",
       SendAction.sentMedia "/x/a.png" MediaType.image,
       SendAction.sentText "抱歉"] ∧
    SendAction.sentText "抱歉" ∈ deliver
        ⟨fun _ => true, fun _ => true,
          fun s => if s = "/x/a.png 抱歉" then some "/x/a.png" else none⟩
        ⟨none, none, none, none, none, none, none, some "/x/a.png 抱歉",
          none⟩ := by
  constructor
  · rfl
  · decide

/-- Witness for C8 (amended): text "/tmp/out.png hello" where the path
exists — the image is sent, then the caption "hello" is sent with the
path substring stripped. -/
theorem deliver_implicit_path_witness :
    deliver
        ⟨fun _ => true, fun _ => true,
          fun s => if s = "/tmp/out.png hello" then some "/tmp/out.png"
            else none⟩
        ⟨none, none, none, none, none, none, none, some "/tmp/out.png hello",
          none⟩ =
      [SendAction.attempt PathKind.textScan "/tmp/out.png",
       SendAction.sentMedia "/tmp/out.png" MediaType.image,
       SendAction.sentText "hello"] := by
  have h := deliver_implicit_path
    ⟨fun _ => true, fun _ => true,
      fun s => if s = "/tmp/out.png hello" then some "/tmp/out.png" else none⟩
    ⟨none, none, none, none, none, none, none, some "/tmp/out.png hello",
      none⟩ "/tmp/out.png" rfl rfl rfl rfl rfl rfl rfl (by decide) rfl rfl
  rw [h]
  decide

end WeCom
